import Mathlib

/-!
Verification of the yog-financial payroll core against its specification.

The Python source is shallowly embedded: `Decimal` values become `ℚ`
(Python `Decimal` is exact decimal arithmetic, a subring of `ℚ`),
Python `None` becomes `Option`, JSON dictionaries become insertion-ordered
association lists (Python 3.7+ `dict` preserves insertion order), and the
string-keyed record dictionaries flowing through the merge become a
`PolicySnapshot` structure mirroring `backend/core/schema.py`.
-/

mutual

/-- A JSON value as stored in the `*_json` fields of a policy snapshot:
either a scalar (number or text) or a nested object.  Objects are
insertion-ordered key/value lists, mirroring Python `dict` semantics. -/
inductive JVal : Type where
  | num (q : ℚ)
  | str (s : String)
  | obj (fields : JObj)

/-- The field list of a JSON object (insertion-ordered, as Python dicts are). -/
inductive JObj : Type where
  | nil
  | cons (key : String) (value : JVal) (rest : JObj)

end

mutual

def JVal.beq : JVal → JVal → Bool
  | .num a, .num b => a == b
  | .str a, .str b => a == b
  | .obj a, .obj b => JObj.beq a b
  | _, _ => false

def JObj.beq : JObj → JObj → Bool
  | .nil, .nil => true
  | .cons k v r, .cons k2 v2 r2 => k == k2 && JVal.beq v v2 && JObj.beq r r2
  | _, _ => false

end

mutual

theorem jval_beq_iff : ∀ a b : JVal, JVal.beq a b = true ↔ a = b
  | .num a, .num b => by simp [JVal.beq]
  | .num _, .str _ => by simp [JVal.beq]
  | .num _, .obj _ => by simp [JVal.beq]
  | .str _, .num _ => by simp [JVal.beq]
  | .str a, .str b => by simp [JVal.beq]
  | .str _, .obj _ => by simp [JVal.beq]
  | .obj _, .num _ => by simp [JVal.beq]
  | .obj _, .str _ => by simp [JVal.beq]
  | .obj a, .obj b => by simp [JVal.beq, jobj_beq_iff a b]

theorem jobj_beq_iff : ∀ a b : JObj, JObj.beq a b = true ↔ a = b
  | .nil, .nil => by simp [JObj.beq]
  | .nil, .cons _ _ _ => by simp [JObj.beq]
  | .cons _ _ _, .nil => by simp [JObj.beq]
  | .cons k v r, .cons k2 v2 r2 => by
      simp [JObj.beq, jval_beq_iff v v2, jobj_beq_iff r r2, Bool.and_assoc,
        and_assoc]

end

instance : DecidableEq JVal := fun a b =>
  decidable_of_iff (JVal.beq a b = true) (jval_beq_iff a b)

instance : DecidableEq JObj := fun a b =>
  decidable_of_iff (JObj.beq a b = true) (jobj_beq_iff a b)

/-- Keys of a JSON object, in order. -/
def JObj.keys : JObj → List String
  | .nil => []
  | .cons k _ r => k :: r.keys

/-- Python `key in merged`. -/
def JObj.hasKey : JObj → String → Bool
  | .nil, _ => false
  | .cons k _ r, k2 => k == k2 || r.hasKey k2

/-- Python `merged[key]` as a total lookup (first occurrence). -/
def JObj.lookup : JObj → String → Option JVal
  | .nil, _ => none
  | .cons k v r, k2 => if k = k2 then some v else r.lookup k2

/-- Python `merged[key] = value` for a key already present:
replace the value of the first matching key, keeping insertion order. -/
def JObj.setKey : JObj → String → JVal → JObj
  | .nil, _, _ => .nil
  | .cons k v r, k2, v2 => if k = k2 then .cons k v2 r else .cons k v (r.setKey k2 v2)

/-- Python `merged[key] = value` for an absent key: append at the end
(new dict keys go last in insertion order). -/
def JObj.push : JObj → String → JVal → JObj
  | .nil, k, v => .cons k v .nil
  | .cons k0 v0 r, k, v => .cons k0 v0 (r.push k v)

mutual

/-- `_merge_nested_dict` from `backend/core/policy_utils.py` lines 8-20,
restricted to the case where both arguments are dicts (inside
`merge_policy_snapshots` the four `*_json` fields are always dicts).
The incoming items are folded into a copy of `existing`: a key present in
both with dict values on both sides merges recursively, otherwise the
incoming value overwrites; absent keys are appended. -/
def mergeNestedDict : JObj → JObj → JObj
  | merged, .nil => merged
  | merged, .cons k v rest => mergeNestedDict (mergeStep merged k v) rest

/-- One iteration of the `for key, value in incoming.items()` loop of
`_merge_nested_dict`: `merged[key] = ...` according to the dict-vs-dict test. -/
def mergeStep (merged : JObj) (k : String) : JVal → JObj
  | JVal.obj vsub =>
      match merged.lookup k with
      | some (JVal.obj sub) => merged.setKey k (JVal.obj (mergeNestedDict sub vsub))
      | some _ => merged.setKey k (JVal.obj vsub)
      | none => merged.push k (JVal.obj vsub)
  | v =>
      if merged.hasKey k then merged.setKey k v else merged.push k v

end

/-- The payroll policy snapshot record, from `backend/core/schema.py`.
`mode` is kept as a string because the merge logic compares it against the
string literals `"SALARIED"` / `"HOURLY"`. -/
structure PolicySnapshot where
  ws_id : String
  employee_name_norm : String
  period_month : String
  mode : String
  base_amount : Option ℚ
  base_rate : Option ℚ
  ot_weekday_multiplier : Option ℚ
  ot_weekend_multiplier : Option ℚ
  ot_weekday_rate : Option ℚ
  ot_weekend_rate : Option ℚ
  allowances_json : JObj
  deductions_json : JObj
  tax_json : JObj
  social_security_json : JObj
  valid_from : Option String
  valid_to : Option String
  raw_snapshot : Option JObj
  source_file : Option String
  source_sheet : Option String
  source_row_range : Option String
  snapshot_hash : Option String
deriving DecidableEq

/-- The numeric-field rule of the snapshot merge
(`if existing_data.get(field) is None and incoming_data.get(field) is not None`):
keep the existing value unless it is null and the incoming one is not. -/
def mergeNum : Option ℚ → Option ℚ → Option ℚ
  | none, some v => some v
  | e, _ => e

/-- The `if not existing_data.get(field) and incoming_data.get(field)` pattern
used for text/metadata fields and for `raw_snapshot`: replace the existing
value by the incoming one exactly when the existing value is falsy and the
incoming one is truthy. -/
def firstTruthy {α : Type} (t : α → Bool) (e i : α) : α :=
  if !(t e) && t i then i else e

/-- Python truthiness of a `str | None` field: `None` and `""` are falsy. -/
def strTruthy : Option String → Bool
  | none => false
  | some s => !(s == "")

/-- Python truthiness of a `dict | None` field: `None` and `{}` are falsy. -/
def objTruthy : Option JObj → Bool
  | none => false
  | some .nil => false
  | some (.cons _ _ _) => true

/-- `merge_policy_snapshots` from `backend/core/policy_utils.py` lines 23-78.
Numeric fields are filled first, then the JSON maps are deep-merged, then
text fields take the first non-empty value, then the mode reconciliation
runs on the *already updated* field dictionary (so `base_amount`/`base_rate`
below are the post-fill values), and finally `raw_snapshot` keeps the first
non-empty dict.  Key fields (`ws_id`, `employee_name_norm`, `period_month`)
stay those of `existing`. -/
def merge_policy_snapshots : Option PolicySnapshot → PolicySnapshot → PolicySnapshot
  | none, incoming => incoming
  | some existing, incoming =>
      let base_amount := mergeNum existing.base_amount incoming.base_amount
      let base_rate := mergeNum existing.base_rate incoming.base_rate
      let mode :=
        if existing.mode ≠ incoming.mode then
          if existing.mode = "SALARIED" ∧ base_amount = none then incoming.mode
          else if existing.mode = "HOURLY" ∧ base_rate = none ∧
              incoming.base_amount ≠ none then incoming.mode
          else existing.mode
        else existing.mode
      { ws_id := existing.ws_id
        employee_name_norm := existing.employee_name_norm
        period_month := existing.period_month
        mode := mode
        base_amount := base_amount
        base_rate := base_rate
        ot_weekday_multiplier :=
          mergeNum existing.ot_weekday_multiplier incoming.ot_weekday_multiplier
        ot_weekend_multiplier :=
          mergeNum existing.ot_weekend_multiplier incoming.ot_weekend_multiplier
        ot_weekday_rate := mergeNum existing.ot_weekday_rate incoming.ot_weekday_rate
        ot_weekend_rate := mergeNum existing.ot_weekend_rate incoming.ot_weekend_rate
        allowances_json := mergeNestedDict existing.allowances_json incoming.allowances_json
        deductions_json := mergeNestedDict existing.deductions_json incoming.deductions_json
        tax_json := mergeNestedDict existing.tax_json incoming.tax_json
        social_security_json :=
          mergeNestedDict existing.social_security_json incoming.social_security_json
        valid_from := firstTruthy strTruthy existing.valid_from incoming.valid_from
        valid_to := firstTruthy strTruthy existing.valid_to incoming.valid_to
        raw_snapshot := firstTruthy objTruthy existing.raw_snapshot incoming.raw_snapshot
        source_file := firstTruthy strTruthy existing.source_file incoming.source_file
        source_sheet := firstTruthy strTruthy existing.source_sheet incoming.source_sheet
        source_row_range :=
          firstTruthy strTruthy existing.source_row_range incoming.source_row_range
        snapshot_hash := firstTruthy strTruthy existing.snapshot_hash incoming.snapshot_hash }

/-- `_merge_policy_snapshots` from `backend/core/rules_v1.py` lines 62-104:
the private duplicate of the shared snapshot merge, applied at
calculation time.  Embedded separately from `merge_policy_snapshots`
because the source duplicates the code. -/
def rulesMergePolicySnapshots : Option PolicySnapshot → PolicySnapshot → PolicySnapshot
  | none, incoming => incoming
  | some existing, incoming =>
      let base_amount := mergeNum existing.base_amount incoming.base_amount
      let base_rate := mergeNum existing.base_rate incoming.base_rate
      let mode :=
        if existing.mode ≠ incoming.mode then
          if existing.mode = "SALARIED" ∧ base_amount = none then incoming.mode
          else if existing.mode = "HOURLY" ∧ base_rate = none ∧
              incoming.base_amount ≠ none then incoming.mode
          else existing.mode
        else existing.mode
      { ws_id := existing.ws_id
        employee_name_norm := existing.employee_name_norm
        period_month := existing.period_month
        mode := mode
        base_amount := base_amount
        base_rate := base_rate
        ot_weekday_multiplier :=
          mergeNum existing.ot_weekday_multiplier incoming.ot_weekday_multiplier
        ot_weekend_multiplier :=
          mergeNum existing.ot_weekend_multiplier incoming.ot_weekend_multiplier
        ot_weekday_rate := mergeNum existing.ot_weekday_rate incoming.ot_weekday_rate
        ot_weekend_rate := mergeNum existing.ot_weekend_rate incoming.ot_weekend_rate
        allowances_json := mergeNestedDict existing.allowances_json incoming.allowances_json
        deductions_json := mergeNestedDict existing.deductions_json incoming.deductions_json
        tax_json := mergeNestedDict existing.tax_json incoming.tax_json
        social_security_json :=
          mergeNestedDict existing.social_security_json incoming.social_security_json
        valid_from := firstTruthy strTruthy existing.valid_from incoming.valid_from
        valid_to := firstTruthy strTruthy existing.valid_to incoming.valid_to
        raw_snapshot := firstTruthy objTruthy existing.raw_snapshot incoming.raw_snapshot
        source_file := firstTruthy strTruthy existing.source_file incoming.source_file
        source_sheet := firstTruthy strTruthy existing.source_sheet incoming.source_sheet
        source_row_range :=
          firstTruthy strTruthy existing.source_row_range incoming.source_row_range
        snapshot_hash := firstTruthy strTruthy existing.snapshot_hash incoming.snapshot_hash }

/-- Whitespace characters recognised by Python `str.strip`/`str.split`
(the fragment relevant to the modelled character set). -/
def isSpaceChar (c : Char) : Bool :=
  c = ' ' || c = '\t' || c = '\n' || c = '\r'

/-- ASCII lowercasing, modelling Python `str.lower` on the character
fragment used by the claims (ASCII letters; CJK and the modelled accented
characters are case-stable). -/
def lowerChar (c : Char) : Char :=
  if 'A' ≤ c && c ≤ 'Z' then Char.ofNat (c.toNat + 32) else c

/-- ASCII uppercasing, modelling Python `str.upper` on the same fragment. -/
def upperChar (c : Char) : Char :=
  if 'a' ≤ c && c ≤ 'z' then Char.ofNat (c.toNat - 32) else c

/-- U+0301 COMBINING ACUTE ACCENT. -/
def combiningAcute : Char := Char.ofNat 0x301

/-- U+00E1 LATIN SMALL LETTER A WITH ACUTE. -/
def aAcute : Char := Char.ofNat 0xE1

/-- Modelled from the spec: the canonical-composition step of Unicode NFKC
("Applies Unicode canonical-compatibility normalization"), whose full
table lives in the Python `unicodedata` library rather than in this
repository.  The model carries the fragment of the Unicode composition
table needed by the claims: `U+0061 U+0301 → U+00E1` (from UnicodeData.txt);
every character of the modelled fragment is compatibility-stable, so the
compatibility-decomposition pass is the identity and NFKC reduces to
composing adjacent base/combining pairs. -/
def nfkcModel : List Char → List Char
  | [] => []
  | [c] => [c]
  | a :: b :: rest =>
      if a = 'a' && b = combiningAcute then aAcute :: nfkcModel rest
      else a :: nfkcModel (b :: rest)

/-- Python `str.strip()`: drop leading and trailing whitespace. -/
def stripChars (l : List Char) : List Char :=
  ((l.dropWhile isSpaceChar).reverse.dropWhile isSpaceChar).reverse

/-- `normalize` from `backend/core/name_normalize.py` lines 8-10:
NFKC-normalise, strip, lowercase, then delete every whitespace character
(`"".join(normalized.split())`). -/
def normalizeChars (s : List Char) : List Char :=
  ((stripChars (nfkcModel s)).map lowerChar).filter (fun c => !(isSpaceChar c))

/-- The minimal fact record from `backend/core/schema.py` (provenance and
tag fields that play no role in validation, aggregation or calculation are
omitted).  `unit` is one of `"hour"`, `"currency"`, `"day"`. -/
structure FactRecord where
  employee_name : String
  employee_name_norm : String
  period_month : String
  metric_code : String
  metric_value : ℚ
  unit : String
deriving DecidableEq

/-- `validate_fact` from `backend/core/validation.py` lines 12-16:
hour values outside `[0, 744]` and negative currency values raise a
`ValidationError`, modelled as `Except.error` with the source message. -/
def validate_fact (record : FactRecord) : Except String Unit :=
  if record.unit = "hour" ∧ (record.metric_value < 0 ∨ record.metric_value > 744) then
    Except.error "hour value out of bounds"
  else if record.unit = "currency" ∧ record.metric_value < 0 then
    Except.error "currency value cannot be negative"
  else Except.ok ()

/-- `validate_policy` from `backend/core/validation.py` lines 19-23. -/
def validate_policy (policy : PolicySnapshot) : Except String Unit :=
  if policy.mode = "SALARIED" ∧ policy.base_amount = none then
    Except.error "SALARIED policy must provide base_amount"
  else if policy.mode = "HOURLY" ∧ policy.base_rate = none then
    Except.error "HOURLY policy must provide base_rate"
  else Except.ok ()

/-- One raw input row of `PipelineWorker._ingest_fact_rows`
(`backend/workers/pipeline.py` lines 309-369).  `period_month` is taken as
the already-normalised `YYYY-MM` value (the free-text month normalisation
is orthogonal to ingestion-time validation). -/
structure RawFactRow where
  employee_name : String
  employee_name_norm : Option String
  period_month : String
  metric_code : String
  metric_value : ℚ
  unit : Option String
deriving DecidableEq

/-- Does `metric_code` start with `"HOUR_"` (Python `str.startswith`). -/
def leadsWith : List Char → List Char → Bool
  | [], _ => true
  | _ :: _, [] => false
  | a :: as2, b :: bs => a = b && leadsWith as2 bs

/-- Python substring test `needle in hay`. -/
def containsSub (needle : List Char) : List Char → Bool
  | [] => needle.isEmpty
  | c :: rest => leadsWith needle (c :: rest) || containsSub needle rest

/-- `keyword in token` on strings. -/
def strHas (token keyword : String) : Bool := containsSub keyword.toList token.toList

/-- The body of the `for row in dataframe.to_dict(orient="records")` loop of
`PipelineWorker._ingest_fact_rows`: rows with an empty employee name are
skipped, the unit defaults to `"hour"` for `HOUR_*` metrics and
`"currency"` otherwise, and the constructed record is handed to
`store.add_fact` as-is.  The loop body contains no call to `validate_fact`,
so the function is total: it cannot signal a domain validation error. -/
def ingestFactRow (row : RawFactRow) : Option FactRecord :=
  if row.employee_name = "" then none
  else some
    { employee_name := row.employee_name
      employee_name_norm :=
        match row.employee_name_norm with
        | some s =>
            if s = "" then String.mk (normalizeChars row.employee_name.toList) else s
        | none => String.mk (normalizeChars row.employee_name.toList)
      period_month := row.period_month
      metric_code := row.metric_code
      metric_value := row.metric_value
      unit :=
        match row.unit with
        | some u =>
            if u = "" then
              (if leadsWith "HOUR_".toList row.metric_code.toList then "hour" else "currency")
            else u
        | none =>
            if leadsWith "HOUR_".toList row.metric_code.toList then "hour" else "currency" }

/-- `PipelineWorker._ingest_fact_rows` over a list of rows: each surviving
row is appended to the workspace fact store (`StateStore.add_fact`).  No
validation happens between row construction and storage. -/
def ingestFactRows (store : List FactRecord) (rows : List RawFactRow) : List FactRecord :=
  rows.foldl
    (fun s row =>
      match ingestFactRow row with
      | none => s
      | some record => s ++ [record])
    store

/-- `AggregatedFacts` from `backend/core/rules_v1.py` lines 16-25. -/
structure AggregatedFacts where
  hour_std : ℚ
  hour_ot_wd : ℚ
  hour_ot_we : ℚ
  hour_total : ℚ
  hour_confirmed : ℚ
  base_amount : ℚ
  allowances : ℚ
  deductions : ℚ
deriving DecidableEq

/-- `_aggregate_facts` from `backend/core/rules_v1.py` lines 107-126. -/
def aggregateFacts (records : List FactRecord) : AggregatedFacts :=
  records.foldl
    (fun agg record =>
      if record.metric_code = "HOUR_STD" then
        { agg with hour_std := agg.hour_std + record.metric_value }
      else if record.metric_code = "HOUR_OT_WD" then
        { agg with hour_ot_wd := agg.hour_ot_wd + record.metric_value }
      else if record.metric_code = "HOUR_OT_WE" then
        { agg with hour_ot_we := agg.hour_ot_we + record.metric_value }
      else if record.metric_code = "HOUR_TOTAL" then
        { agg with hour_total := agg.hour_total + record.metric_value }
      else if record.metric_code = "HOUR_CONFIRMED" then
        { agg with hour_confirmed := agg.hour_confirmed + record.metric_value }
      else if record.metric_code = "AMOUNT_BASE" then
        { agg with base_amount := agg.base_amount + record.metric_value }
      else if record.metric_code = "AMOUNT_ALLOW" then
        { agg with allowances := agg.allowances + record.metric_value }
      else if record.metric_code = "AMOUNT_DEDUCT" then
        { agg with deductions := agg.deductions + record.metric_value }
      else agg)
    ⟨0, 0, 0, 0, 0, 0, 0, 0⟩

/-- Python `x or y` on two `Decimal`s: `x` unless it is zero. -/
def qOr (a b : ℚ) : ℚ := if a = 0 then b else a

/-- `_select_hours` from `backend/core/rules_v1.py` lines 129-131:
`agg.hour_confirmed or agg.hour_total or agg.hour_std` (left associated). -/
def select_hours (agg : AggregatedFacts) : ℚ :=
  qOr (qOr agg.hour_confirmed agg.hour_total) agg.hour_std

/-- Python `x or d` on a `Decimal | None`: `None` *and zero* are falsy and
fall back to the default. -/
def decOr (x : Option ℚ) (d : ℚ) : ℚ :=
  match x with
  | none => d
  | some v => if v = 0 then d else v

/-- The base-pay / overtime-pay pair computed per employee. -/
structure BaseOt where
  base : ℚ
  ot : ℚ
deriving DecidableEq

/-- The base/overtime computation of `calculate_period`
(`backend/core/rules_v1.py` lines 180-193): the SALARIED branch uses the
flat overtime *rates*, the HOURLY branch pays selected hours times
`base_rate` plus the incremental multiplier overtime. -/
def calcBaseOt (policy : PolicySnapshot) (agg : AggregatedFacts) : BaseOt :=
  let hours := select_hours agg
  if policy.mode = "SALARIED" then
    { base := decOr policy.base_amount agg.base_amount
      ot := agg.hour_ot_wd * decOr policy.ot_weekday_rate 0
          + agg.hour_ot_we * decOr policy.ot_weekend_rate 0 }
  else
    let rate := decOr policy.base_rate 0
    { base := hours * rate
      ot := agg.hour_ot_wd * rate * (decOr policy.ot_weekday_multiplier 1 - 1)
          + agg.hour_ot_we * rate * (decOr policy.ot_weekend_multiplier 1 - 1) }

/-- One bracket of the progressive tax table (`{limit, rate}`, a `null`
limit marking the final unbounded bracket). -/
structure TaxBracket where
  limit : Option ℚ
  rate : ℚ

/-- The bracket table plus the flat monthly threshold, as loaded from
external configuration by `_load_tax_table`. -/
structure TaxTable where
  default_threshold : ℚ
  brackets : List TaxBracket

/-- The bracket-walking loop of `_apply_tax` (`backend/core/rules_v1.py`
lines 139-152): consume `remaining` bracket by bracket, adding
`bucket * rate` per full bracket and `remaining * rate` for the bracket in
which the taxable amount is exhausted (or for the final unbounded one). -/
def taxWalk : ℚ → List TaxBracket → ℚ
  | _, [] => 0
  | remaining, b :: rest =>
      match b.limit with
      | none => remaining * b.rate
      | some l =>
          if remaining ≤ l then remaining * b.rate
          else l * b.rate + (if remaining - l ≤ 0 then 0 else taxWalk (remaining - l) rest)

/-- `_apply_tax` from `backend/core/rules_v1.py` lines 133-152, parametrised
by the configured table: taxable base is
`gross - personal_ss - default_threshold`; non-positive taxable bases pay
zero tax, otherwise the bracket walk runs. -/
def apply_tax (table : TaxTable) (gross personal_ss : ℚ) : ℚ :=
  let taxable := gross - personal_ss - table.default_threshold
  if taxable ≤ 0 then 0 else taxWalk taxable table.brackets

/-- `KEYWORDS_TIMESHEET_PERSONAL` from `backend/extractors/detect.py`. -/
def KEYWORDS_TIMESHEET_PERSONAL : List String := ["日期", "标准工时", "加班工时", "总工时"]

/-- `KEYWORDS_TIMESHEET_AGG` from `backend/extractors/detect.py`. -/
def KEYWORDS_TIMESHEET_AGG : List String :=
  ["工作日标准工时", "工作日加班工时", "周末", "确认工时", "当月工时"]

/-- `KEYWORDS_POLICY` from `backend/extractors/detect.py`. -/
def KEYWORDS_POLICY : List String :=
  ["基本工资", "底薪", "加班", "津贴", "扣款", "社保", "公积金", "个税"]

/-- `KEYWORDS_ROSTER` from `backend/extractors/detect.py`. -/
def KEYWORDS_ROSTER : List String := ["身份证", "社保基数", "个人比例", "入职", "离职"]

/-- `POLICY_CORE` from `backend/extractors/detect.py`. -/
def POLICY_CORE : List String := ["模式", "mode", "基本", "底薪", "时薪"]

/-- The token normalisation of `_detect_from_tokens`: keep the non-blank
string tokens, stripped and lowercased. -/
def tokNormList (tokens : List String) : List String :=
  tokens.filterMap fun t =>
    let s := String.mk (stripChars t.toList)
    if s = "" then none else some (String.mk (s.toList.map lowerChar))

/-- Do any of the normalised tokens contain any of the given keywords
(the `any(option in token ...)` helper `_has_any`). -/
def hasAnyKw (lowered : List String) (opts : List String) : Bool :=
  lowered.any fun t => opts.any fun kw => strHas t kw

/-- `_detect_from_tokens` from `backend/extractors/detect.py` lines 67-102:
exact `metric_code` / `mode`+`employee_name_norm` tokens first, then the
policy keyword+core rule, then the layered roster rule, then the two
timesheet keyword rules. -/
def detectFromTokens (tokens : List String) : Option String :=
  let lowered := tokNormList tokens
  if lowered.isEmpty then none
  else if lowered.contains "metric_code" then some "fact_table"
  else if lowered.contains "mode" && lowered.contains "employee_name_norm" then
    some "policy_table"
  else if hasAnyKw lowered KEYWORDS_POLICY && hasAnyKw lowered POLICY_CORE then
    some "policy_sheet"
  else
    let rosterHits :=
      (KEYWORDS_ROSTER.map (fun kw => (lowered.filter (fun t => strHas t kw)).length)).sum
    let personalHit := hasAnyKw lowered ["个人比例", "个人缴费", "个人%", "个人缴纳"]
    let employerHit := hasAnyKw lowered ["公司比例", "单位比例", "公司缴费", "单位缴纳"]
    let baseHint := hasAnyKw lowered ["基数", "下限", "上限"]
    let lifecycleHint := hasAnyKw lowered ["入职", "离职"]
    let idHint := hasAnyKw lowered ["身份证"]
    if rosterHits ≥ 2 || (personalHit && (employerHit || baseHint || lifecycleHint))
        || (idHint && (personalHit || employerHit || baseHint || lifecycleHint)) then
      some "roster_sheet"
    else if hasAnyKw lowered KEYWORDS_TIMESHEET_AGG then some "timesheet_aggregate"
    else if hasAnyKw lowered KEYWORDS_TIMESHEET_PERSONAL then some "timesheet_personal"
    else none

/-- The per-row retry loop of `_detect_from_frame`: score each sampled data
row as a substitute header, first hit wins. -/
def rowRetry : List (List String) → Option String
  | [] => none
  | r :: rest =>
      match detectFromTokens r with
      | some s => some s
      | none => rowRetry rest

/-- `_detect_from_frame` from `backend/extractors/detect.py` lines 105-120:
an empty frame (no data rows) yields `None`; otherwise the header tokens
are scored and, failing that, each sampled row is retried as a substitute
header.  Rows are modelled as their string-typed cells (non-string cells
are discarded by `_detect_from_tokens` anyway). -/
def detectFromFrame (columns : List String) (rows : List (List String)) : Option String :=
  if rows.isEmpty then none
  else
    match detectFromTokens columns with
    | some s => some s
    | none => rowRetry rows

/-- `str(row.get(mode_column) or "SALARIED").strip().upper()` followed by the
`not in {"SALARIED", "HOURLY"}` fallback, from `backend/extractors/policy_sheet.py`
lines 97-103. -/
def resolveMode (raw : Option String) : String :=
  let s :=
    match raw with
    | none => "SALARIED"
    | some t => if t = "" then "SALARIED" else t
  let m := String.mk ((stripChars s.toList).map upperChar)
  if m = "SALARIED" ∨ m = "HOURLY" then m else "SALARIED"

/-- The mode / base-amount / base-rate assignment of `policy_sheet.parse`
(`backend/extractors/policy_sheet.py` lines 105-115), given the resolved
mode string and the parsed decimal values of the base and rate columns:
SALARIED rows with a base value keep it, HOURLY rows with a rate value keep
it, and a SALARIED row without a base value but with a rate value is
reclassified HOURLY with that rate.  Returns (mode, base_amount, base_rate). -/
def policySheetModeBase (rawMode : Option String) (base_value rate_value : Option ℚ) :
    String × Option ℚ × Option ℚ :=
  let m := resolveMode rawMode
  let base_amount : Option ℚ := if m = "SALARIED" then base_value else none
  let base_rate : Option ℚ := if m = "HOURLY" then rate_value else none
  if m = "SALARIED" ∧ base_value = none ∧ rate_value ≠ none then ("HOURLY", none, rate_value)
  else (m, base_amount, base_rate)

/-- Is a JSON value a non-dict (scalar)?  Mirrors the result of the
`isinstance(value, dict)` tests in `_merge_nested_dict`. -/
def JVal.isScalar : JVal → Bool
  | .obj _ => false
  | _ => true

/-- A flat JSON object: every value is a scalar (no nested dicts). -/
def JObj.flat : JObj → Bool
  | .nil => true
  | .cons _ v r => v.isScalar && r.flat

/-- Insert-or-replace: the effect of `merged[key] = value` on a Python
dict, i.e. the scalar-value case of `mergeStep`. -/
def JObj.upsert (o : JObj) (k : String) (v : JVal) : JObj :=
  if o.hasKey k then o.setKey k v else o.push k v

/-- All four JSON map fields of a snapshot are flat with duplicate-free
keys — true of every snapshot coming out of a Python dict whose values
are scalars. -/
def PolicySnapshot.jsonFlatNodup (p : PolicySnapshot) : Prop :=
  (p.allowances_json.flat = true ∧ p.allowances_json.keys.Nodup) ∧
  (p.deductions_json.flat = true ∧ p.deductions_json.keys.Nodup) ∧
  (p.tax_json.flat = true ∧ p.tax_json.keys.Nodup) ∧
  (p.social_security_json.flat = true ∧ p.social_security_json.keys.Nodup)

instance (p : PolicySnapshot) : Decidable p.jsonFlatNodup := by
  unfold PolicySnapshot.jsonFlatNodup
  infer_instance

/-- A baseline snapshot used for the concrete test inputs of the
theorems below: SALARIED with every optional field empty. -/
def blankSnapshot : PolicySnapshot where
  ws_id := "2025-01"
  employee_name_norm := "张三"
  period_month := "2025-01"
  mode := "SALARIED"
  base_amount := none
  base_rate := none
  ot_weekday_multiplier := none
  ot_weekend_multiplier := none
  ot_weekday_rate := none
  ot_weekend_rate := none
  allowances_json := .nil
  deductions_json := .nil
  tax_json := .nil
  social_security_json := .nil
  valid_from := none
  valid_to := none
  raw_snapshot := none
  source_file := none
  source_sheet := none
  source_row_range := none
  snapshot_hash := none

/-- A baseline aggregated-facts value (all sums zero) for concrete inputs. -/
def blankAgg : AggregatedFacts := ⟨0, 0, 0, 0, 0, 0, 0, 0⟩

theorem mergeSnap_ws_id (e i : PolicySnapshot) :
    (merge_policy_snapshots (some e) i).ws_id = e.ws_id := rfl

theorem mergeSnap_name (e i : PolicySnapshot) :
    (merge_policy_snapshots (some e) i).employee_name_norm = e.employee_name_norm := rfl

theorem mergeSnap_period (e i : PolicySnapshot) :
    (merge_policy_snapshots (some e) i).period_month = e.period_month := rfl

theorem mergeSnap_mode (e i : PolicySnapshot) :
    (merge_policy_snapshots (some e) i).mode =
      if e.mode ≠ i.mode then
        if e.mode = "SALARIED" ∧ mergeNum e.base_amount i.base_amount = none then i.mode
        else if e.mode = "HOURLY" ∧ mergeNum e.base_rate i.base_rate = none ∧
            i.base_amount ≠ none then i.mode
        else e.mode
      else e.mode := rfl

theorem mergeSnap_base_amount (e i : PolicySnapshot) :
    (merge_policy_snapshots (some e) i).base_amount =
      mergeNum e.base_amount i.base_amount := rfl

theorem mergeSnap_base_rate (e i : PolicySnapshot) :
    (merge_policy_snapshots (some e) i).base_rate = mergeNum e.base_rate i.base_rate := rfl

theorem mergeSnap_ot_wd_mult (e i : PolicySnapshot) :
    (merge_policy_snapshots (some e) i).ot_weekday_multiplier =
      mergeNum e.ot_weekday_multiplier i.ot_weekday_multiplier := rfl

theorem mergeSnap_ot_we_mult (e i : PolicySnapshot) :
    (merge_policy_snapshots (some e) i).ot_weekend_multiplier =
      mergeNum e.ot_weekend_multiplier i.ot_weekend_multiplier := rfl

theorem mergeSnap_ot_wd_rate (e i : PolicySnapshot) :
    (merge_policy_snapshots (some e) i).ot_weekday_rate =
      mergeNum e.ot_weekday_rate i.ot_weekday_rate := rfl

theorem mergeSnap_ot_we_rate (e i : PolicySnapshot) :
    (merge_policy_snapshots (some e) i).ot_weekend_rate =
      mergeNum e.ot_weekend_rate i.ot_weekend_rate := rfl

theorem mergeSnap_allowances (e i : PolicySnapshot) :
    (merge_policy_snapshots (some e) i).allowances_json =
      mergeNestedDict e.allowances_json i.allowances_json := rfl

theorem mergeSnap_deductions (e i : PolicySnapshot) :
    (merge_policy_snapshots (some e) i).deductions_json =
      mergeNestedDict e.deductions_json i.deductions_json := rfl

theorem mergeSnap_tax_json (e i : PolicySnapshot) :
    (merge_policy_snapshots (some e) i).tax_json =
      mergeNestedDict e.tax_json i.tax_json := rfl

theorem mergeSnap_ss_json (e i : PolicySnapshot) :
    (merge_policy_snapshots (some e) i).social_security_json =
      mergeNestedDict e.social_security_json i.social_security_json := rfl

theorem mergeSnap_valid_from (e i : PolicySnapshot) :
    (merge_policy_snapshots (some e) i).valid_from =
      firstTruthy strTruthy e.valid_from i.valid_from := rfl

theorem mergeSnap_valid_to (e i : PolicySnapshot) :
    (merge_policy_snapshots (some e) i).valid_to =
      firstTruthy strTruthy e.valid_to i.valid_to := rfl

theorem mergeSnap_raw (e i : PolicySnapshot) :
    (merge_policy_snapshots (some e) i).raw_snapshot =
      firstTruthy objTruthy e.raw_snapshot i.raw_snapshot := rfl

theorem mergeSnap_source_file (e i : PolicySnapshot) :
    (merge_policy_snapshots (some e) i).source_file =
      firstTruthy strTruthy e.source_file i.source_file := rfl

theorem mergeSnap_source_sheet (e i : PolicySnapshot) :
    (merge_policy_snapshots (some e) i).source_sheet =
      firstTruthy strTruthy e.source_sheet i.source_sheet := rfl

theorem mergeSnap_source_row_range (e i : PolicySnapshot) :
    (merge_policy_snapshots (some e) i).source_row_range =
      firstTruthy strTruthy e.source_row_range i.source_row_range := rfl

theorem mergeSnap_snapshot_hash (e i : PolicySnapshot) :
    (merge_policy_snapshots (some e) i).snapshot_hash =
      firstTruthy strTruthy e.snapshot_hash i.snapshot_hash := rfl

theorem mergeNum_eq_none_iff (a b : Option ℚ) :
    mergeNum a b = none ↔ a = none ∧ b = none := by
  cases a <;> cases b <;> simp [mergeNum]

theorem mergeNum_some (a : ℚ) (b : Option ℚ) : mergeNum (some a) b = some a := by
  cases b <;> rfl

/-- C10: the private snapshot merge duplicated inside the rules engine
(`rules_v1._merge_policy_snapshots`) computes exactly the same function as
the shared merge `policy_utils.merge_policy_snapshots`, for every optional
existing snapshot and every incoming snapshot: calculation-time merging
and read-time merging of stored policies agree. -/
theorem rules_merge_eq_policy_utils_merge :
    ∀ (existing : Option PolicySnapshot) (incoming : PolicySnapshot),
      rulesMergePolicySnapshots existing incoming =
        merge_policy_snapshots existing incoming := by
  intro existing incoming
  cases existing <;> rfl

/-- C1: for snapshots with the same employee/period key whose modes differ,
`merge_policy_snapshots` switches the merged mode to the incoming one only
when the existing snapshot's declared mode lacks its defining field
(existing SALARIED with null `base_amount`, or existing HOURLY with null
`base_rate` while the incoming snapshot supplies a `base_amount`); a
snapshot whose defining field is populated never has its mode or its base
value overwritten by a later partial snapshot. -/
theorem merge_mode_upgrade_only_when_underspecified
    (existing incoming : PolicySnapshot)
    (hmodes : existing.mode ≠ incoming.mode) :
    ((merge_policy_snapshots (some existing) incoming).mode ≠ existing.mode →
      (existing.mode = "SALARIED" ∧ existing.base_amount = none) ∨
      (existing.mode = "HOURLY" ∧ existing.base_rate = none ∧
        incoming.base_amount ≠ none)) ∧
    (∀ a : ℚ, existing.mode = "SALARIED" → existing.base_amount = some a →
      (merge_policy_snapshots (some existing) incoming).mode = "SALARIED" ∧
      (merge_policy_snapshots (some existing) incoming).base_amount = some a) ∧
    (∀ r : ℚ, existing.mode = "HOURLY" → existing.base_rate = some r →
      (merge_policy_snapshots (some existing) incoming).mode = "HOURLY" ∧
      (merge_policy_snapshots (some existing) incoming).base_rate = some r) := by
  refine ⟨?_, ?_, ?_⟩
  · intro hchanged
    rw [mergeSnap_mode, if_pos hmodes] at hchanged
    by_cases h1 : existing.mode = "SALARIED" ∧
        mergeNum existing.base_amount incoming.base_amount = none
    · exact Or.inl ⟨h1.1, ((mergeNum_eq_none_iff _ _).mp h1.2).1⟩
    · rw [if_neg h1] at hchanged
      by_cases h2 : existing.mode = "HOURLY" ∧
          mergeNum existing.base_rate incoming.base_rate = none ∧
          incoming.base_amount ≠ none
      · exact Or.inr ⟨h2.1, ((mergeNum_eq_none_iff _ _).mp h2.2.1).1, h2.2.2⟩
      · rw [if_neg h2] at hchanged
        exact absurd rfl hchanged
  · intro a hS hba
    have hnum : mergeNum existing.base_amount incoming.base_amount = some a := by
      rw [hba, mergeNum_some]
    have h1 : ¬(existing.mode = "SALARIED" ∧
        mergeNum existing.base_amount incoming.base_amount = none) := by
      rintro ⟨-, hn⟩
      rw [hnum] at hn
      cases hn
    have h2 : ¬(existing.mode = "HOURLY" ∧
        mergeNum existing.base_rate incoming.base_rate = none ∧
        incoming.base_amount ≠ none) := by
      rintro ⟨hH, -, -⟩
      rw [hS] at hH
      exact absurd hH (by decide)
    constructor
    · rw [mergeSnap_mode, if_pos hmodes, if_neg h1, if_neg h2]
      exact hS
    · rw [mergeSnap_base_amount, hnum]
  · intro r hH hbr
    have hnum : mergeNum existing.base_rate incoming.base_rate = some r := by
      rw [hbr, mergeNum_some]
    have h1 : ¬(existing.mode = "SALARIED" ∧
        mergeNum existing.base_amount incoming.base_amount = none) := by
      rintro ⟨hS, -⟩
      rw [hH] at hS
      exact absurd hS (by decide)
    have h2 : ¬(existing.mode = "HOURLY" ∧
        mergeNum existing.base_rate incoming.base_rate = none ∧
        incoming.base_amount ≠ none) := by
      rintro ⟨-, hn, -⟩
      rw [hnum] at hn
      cases hn
    constructor
    · rw [mergeSnap_mode, if_pos hmodes, if_neg h1, if_neg h2]
      exact hH
    · rw [mergeSnap_base_rate, hnum]

/-- Witness for C1: an under-specified SALARIED snapshot merged with an
incoming HOURLY snapshot carrying a rate, evaluated concretely. -/
theorem merge_mode_upgrade_only_when_underspecified_witness :
    blankSnapshot.mode ≠
      ({ blankSnapshot with mode := "HOURLY", base_rate := some 10 } :
        PolicySnapshot).mode ∧
    (((merge_policy_snapshots (some blankSnapshot)
          { blankSnapshot with mode := "HOURLY", base_rate := some 10 }).mode ≠
        blankSnapshot.mode →
      (blankSnapshot.mode = "SALARIED" ∧ blankSnapshot.base_amount = none) ∨
      (blankSnapshot.mode = "HOURLY" ∧ blankSnapshot.base_rate = none ∧
        ({ blankSnapshot with mode := "HOURLY", base_rate := some 10 } :
          PolicySnapshot).base_amount ≠ none)) ∧
    (∀ a : ℚ, blankSnapshot.mode = "SALARIED" → blankSnapshot.base_amount = some a →
      (merge_policy_snapshots (some blankSnapshot)
          { blankSnapshot with mode := "HOURLY", base_rate := some 10 }).mode =
        "SALARIED" ∧
      (merge_policy_snapshots (some blankSnapshot)
          { blankSnapshot with mode := "HOURLY", base_rate := some 10 }).base_amount =
        some a) ∧
    (∀ r : ℚ, blankSnapshot.mode = "HOURLY" → blankSnapshot.base_rate = some r →
      (merge_policy_snapshots (some blankSnapshot)
          { blankSnapshot with mode := "HOURLY", base_rate := some 10 }).mode =
        "HOURLY" ∧
      (merge_policy_snapshots (some blankSnapshot)
          { blankSnapshot with mode := "HOURLY", base_rate := some 10 }).base_rate =
        some r)) :=
  ⟨by decide, merge_mode_upgrade_only_when_underspecified _ _ (by decide)⟩

/-- C8: for a `policy_sheet` row whose resolved mode is SALARIED, if no
base-amount column value parses as a decimal while a rate column value
does, the emitted snapshot has mode HOURLY with `base_rate` equal to that
rate; if a base-amount value is present, the snapshot stays SALARIED with
`base_amount` equal to it. -/
theorem policy_sheet_reclassify_hourly
    (rawMode : Option String) (bv rv : Option ℚ)
    (hmode : resolveMode rawMode = "SALARIED") :
    (∀ r : ℚ, bv = none → rv = some r →
      policySheetModeBase rawMode bv rv = ("HOURLY", none, some r)) ∧
    (∀ a : ℚ, bv = some a →
      (policySheetModeBase rawMode bv rv).1 = "SALARIED" ∧
      (policySheetModeBase rawMode bv rv).2.1 = some a) := by
  constructor
  · intro r hbv hrv
    subst hbv
    subst hrv
    simp [policySheetModeBase, hmode]
  · intro a hbv
    subst hbv
    simp [policySheetModeBase, hmode]

/-- Witness for C8: a row declaring mode `" salaried "` with only a rate
column value 52.5 is reclassified HOURLY; a row with base amount 8000
stays SALARIED. -/
theorem policy_sheet_reclassify_hourly_witness :
    resolveMode (some " salaried ") = "SALARIED" ∧
    policySheetModeBase (some " salaried ") none (some (105 / 2)) =
      ("HOURLY", none, some (105 / 2)) ∧
    ((policySheetModeBase (some " salaried ") (some 8000) (some (105 / 2))).1 =
        "SALARIED" ∧
      (policySheetModeBase (some " salaried ") (some 8000) (some (105 / 2))).2.1 =
        some 8000) :=
  ⟨by decide,
    (policy_sheet_reclassify_hourly (some " salaried ") none (some (105 / 2))
      (by decide)).1 (105 / 2) rfl rfl,
    (policy_sheet_reclassify_hourly (some " salaried ") (some 8000) (some (105 / 2))
      (by decide)).2 8000 rfl⟩

/-- C4: the claim says out-of-bounds facts are rejected before a record is
accepted into the store.  `validate_fact` does implement exactly the
claimed bounds (second through fifth conjuncts), but the ingestion path
`PipelineWorker._ingest_fact_rows` never invokes it: the first conjunct
evaluates the ingestion of a 745-hour fact row and shows the record is
appended to the store unchanged — no validation error is raised anywhere
on the way (the ingestion embedding is a total function because the
source loop body contains no validation call). -/
theorem ingest_stores_out_of_bounds_hour_fact :
    ingestFactRows []
        [⟨"张三", some "张三", "2025-01", "HOUR_STD", 745, some "hour"⟩] =
      [⟨"张三", "张三", "2025-01", "HOUR_STD", 745, "hour"⟩] ∧
    validate_fact ⟨"张三", "张三", "2025-01", "HOUR_STD", 745, "hour"⟩ =
      Except.error "hour value out of bounds" ∧
    validate_fact ⟨"李四", "李四", "2025-01", "AMOUNT_DEDUCT", -1, "currency"⟩ =
      Except.error "currency value cannot be negative" ∧
    validate_fact ⟨"张三", "张三", "2025-01", "HOUR_STD", 744, "hour"⟩ =
      Except.ok () ∧
    validate_fact ⟨"李四", "李四", "2025-01", "AMOUNT_DEDUCT", 0, "currency"⟩ =
      Except.ok () := by
  refine ⟨by decide, rfl, rfl, rfl, rfl⟩

theorem toNat_ofNat_valid (n : Nat) (h : n.isValidChar) : (Char.ofNat n).toNat = n := by
  simp [Char.ofNat, h, Char.toNat, Char.ofNatAux, UInt32.toNat, BitVec.toNat_ofNatLt]

theorem lowerChar_idem (c : Char) : lowerChar (lowerChar c) = lowerChar c := by
  unfold lowerChar
  by_cases h : ('A' ≤ c && c ≤ 'Z') = true
  · simp only [h, if_true]
    have h1 : 'A' ≤ c := by simp_all
    have h2 : c ≤ 'Z' := by simp_all
    have hA : 65 ≤ c.toNat := h1
    have hZ : c.toNat ≤ 90 := h2
    have hv : (c.toNat + 32).isValidChar := Or.inl (by omega)
    have ht : (Char.ofNat (c.toNat + 32)).toNat = c.toNat + 32 := toNat_ofNat_valid _ hv
    have hno : ¬('A' ≤ Char.ofNat (c.toNat + 32) && Char.ofNat (c.toNat + 32) ≤ 'Z') = true := by
      simp only [Bool.and_eq_true, decide_eq_true_eq, not_and]
      intro _ hle
      have h90 : (Char.ofNat (c.toNat + 32)).toNat ≤ 90 := hle
      omega
    simp [hno]
  · simp [h]

theorem lowerChar_eq_comb (c : Char) (h : lowerChar c = combiningAcute) :
    c = combiningAcute := by
  by_cases hc : ('A' ≤ c && c ≤ 'Z') = true
  · exfalso
    unfold lowerChar at h
    rw [if_pos hc] at h
    have h2 : c ≤ 'Z' := by simp_all
    have hZ : c.toNat ≤ 90 := h2
    have hv : (c.toNat + 32).isValidChar := Or.inl (by omega)
    have ht : (Char.ofNat (c.toNat + 32)).toNat = c.toNat + 32 := toNat_ofNat_valid _ hv
    have : (combiningAcute).toNat = 769 := by decide
    rw [h] at ht
    omega
  · unfold lowerChar at h
    rwa [if_neg hc] at h

theorem nfkc_no_comb : ∀ l : List Char, combiningAcute ∉ l → nfkcModel l = l
  | [], _ => rfl
  | [_], _ => rfl
  | a :: b :: rest, h => by
      have hb : b ≠ combiningAcute := by
        intro hbe
        exact h (by simp [hbe])
      have hcond : (a = 'a' && b = combiningAcute) = false := by
        simp [hb]
      rw [nfkcModel, hcond]
      simp only [Bool.false_eq_true, if_false]
      congr 1
      exact nfkc_no_comb (b :: rest) (fun hm => h (List.mem_cons_of_mem _ hm))

theorem strip_of_no_space (l : List Char) (h : ∀ c ∈ l, isSpaceChar c = false) :
    stripChars l = l := by
  have drop_self : ∀ m : List Char, (∀ c ∈ m, isSpaceChar c = false) →
      m.dropWhile isSpaceChar = m := by
    intro m hm
    cases m with
    | nil => rfl
    | cons a as => simp [List.dropWhile_cons, hm a (by simp)]
  unfold stripChars
  rw [drop_self l h, drop_self l.reverse (fun c hc => h c (List.mem_reverse.mp hc)),
    List.reverse_reverse]

theorem mem_stripChars (c : Char) (l : List Char) (h : c ∈ stripChars l) : c ∈ l := by
  unfold stripChars at h
  rw [List.mem_reverse] at h
  have h1 := (List.dropWhile_sublist (l := (l.dropWhile isSpaceChar).reverse)
    (p := isSpaceChar)).mem h
  rw [List.mem_reverse] at h1
  exact (List.dropWhile_sublist (l := l) (p := isSpaceChar)).mem h1

theorem comb_not_mem_normalize (s : List Char) (h : combiningAcute ∉ s) :
    combiningAcute ∉ normalizeChars s := by
  intro hmem
  unfold normalizeChars at hmem
  have h1 := List.mem_of_mem_filter hmem
  rw [List.mem_map] at h1
  obtain ⟨c0, hc0, heq⟩ := h1
  have : c0 = combiningAcute := lowerChar_eq_comb c0 heq
  subst this
  rw [nfkc_no_comb s h] at hc0
  exact h (mem_stripChars _ _ hc0)

/-- C6 counterexample: the string `"a ́"` (letter a, space, combining
acute) is a fixed point violation: the first `normalize` pass deletes the
interior space, carrying `a` next to the combining accent, and the second
pass NFKC-composes them into `á`, so `normalize (normalize s) ≠ normalize s`. -/
theorem normalize_not_idempotent_at_space_comb :
    normalizeChars (normalizeChars ['a', ' ', combiningAcute]) ≠
      normalizeChars ['a', ' ', combiningAcute] := by decide

/-- C6 amended: the normalizer is idempotent on every string containing no
combining character (the modelled combining fragment is U+0301): for such
strings the NFKC pass is the identity and the remaining steps
(strip, lowercase, whitespace removal) stabilise after one application. -/
theorem normalize_idempotent_of_no_combining (s : List Char)
    (h : combiningAcute ∉ s) :
    normalizeChars (normalizeChars s) = normalizeChars s := by
  have hcomb : combiningAcute ∉ normalizeChars s := comb_not_mem_normalize s h
  have hnospace : ∀ c ∈ normalizeChars s, isSpaceChar c = false := by
    intro c hc
    unfold normalizeChars at hc
    have := List.of_mem_filter hc
    simpa using this
  have hlower : ∀ c ∈ normalizeChars s, lowerChar c = c := by
    intro c hc
    unfold normalizeChars at hc
    have h1 := List.mem_of_mem_filter hc
    rw [List.mem_map] at h1
    obtain ⟨c0, _, heq⟩ := h1
    rw [← heq, lowerChar_idem]
  generalize hgen : normalizeChars s = t at hcomb hnospace hlower ⊢
  unfold normalizeChars
  rw [nfkc_no_comb _ hcomb, strip_of_no_space _ hnospace]
  have hmap : t.map lowerChar = t := by
    rw [List.map_congr_left hlower]
    simp
  rw [hmap]
  exact List.filter_eq_self.mpr (fun c hc => by simp [hnospace c hc])

/-- Witness for C6 amended: a name with uppercase ASCII, tabs and interior
spaces but no combining characters normalises to a fixed point. -/
theorem normalize_idempotent_of_no_combining_witness :
    combiningAcute ∉ ['\t', 'Z', 'h', 'a', 'n', 'g', ' ', 'S', 'a', 'n', ' '] ∧
    normalizeChars (normalizeChars ['\t', 'Z', 'h', 'a', 'n', 'g', ' ', 'S', 'a', 'n', ' ']) =
      normalizeChars ['\t', 'Z', 'h', 'a', 'n', 'g', ' ', 'S', 'a', 'n', ' '] :=
  ⟨by decide, normalize_idempotent_of_no_combining _ (by decide)⟩

/-- C9: the detector's token classification: (1) any header token list whose
normalised tokens contain the exact token `metric_code` classifies as
`fact_table`, regardless of every keyword rule below it; (2) the headers
`姓名/模式/基本工资` classify as `policy_sheet` (a policy keyword plus a
core mode/base token); (3) a header set matching no rule makes
`_detect_from_frame` retry the same scoring on each sampled data row as a
substitute header before giving up. -/
theorem detect_token_classification :
    (∀ tokens : List String, "metric_code" ∈ tokNormList tokens →
      detectFromTokens tokens = some "fact_table") ∧
    detectFromTokens ["姓名", "模式", "基本工资"] = some "policy_sheet" ∧
    (∀ (columns : List String) (rows : List (List String)),
      rows ≠ [] → detectFromTokens columns = none →
      detectFromFrame columns rows = rowRetry rows) := by
  refine ⟨?_, by decide, ?_⟩
  · intro tokens hmem
    have hne : (tokNormList tokens).isEmpty = false := by
      cases hl : tokNormList tokens with
      | nil => rw [hl] at hmem; cases hmem
      | cons a as => rfl
    have hcon : (tokNormList tokens).contains "metric_code" = true := by
      simpa using hmem
    unfold detectFromTokens
    simp [hne, hcon, hmem]
  · intro columns rows hrows hnone
    unfold detectFromFrame
    simp only [List.isEmpty_eq_true, hrows, if_false, hnone]

/-- Witness for C9: part 1 applied to a concrete header list with noise
tokens and mixed case, part 3 applied to a concrete unrecognised header
with a recognisable data row. -/
theorem detect_token_classification_witness :
    "metric_code" ∈ tokNormList ["Employee_Name", " Metric_Code ", "备注"] ∧
    detectFromTokens ["Employee_Name", " Metric_Code ", "备注"] = some "fact_table" ∧
    ([["姓名", "模式", "基本工资"]] : List (List String)) ≠ [] ∧
    detectFromTokens ["x", "y"] = none ∧
    detectFromFrame ["x", "y"] [["姓名", "模式", "基本工资"]] =
      rowRetry [["姓名", "模式", "基本工资"]] :=
  ⟨by decide,
    detect_token_classification.1 ["Employee_Name", " Metric_Code ", "备注"] (by decide),
    by decide, by decide,
    detect_token_classification.2.2 ["x", "y"] [["姓名", "模式", "基本工资"]]
      (by decide) (by decide)⟩

theorem taxWalk_nonneg (bs : List TaxBracket)
    (hrate : ∀ b ∈ bs, 0 ≤ b.rate)
    (hlimit : ∀ b ∈ bs, ∀ l, b.limit = some l → 0 ≤ l) :
    ∀ r : ℚ, 0 ≤ r → 0 ≤ taxWalk r bs := by
  induction bs with
  | nil => intro r _; simp [taxWalk]
  | cons b rest ih =>
      intro r hr
      have hbr : 0 ≤ b.rate := hrate b (by simp)
      unfold taxWalk
      cases hl : b.limit with
      | none => exact mul_nonneg hr hbr
      | some l =>
          dsimp only
          have hl0 : 0 ≤ l := hlimit b (by simp) l hl
          by_cases hcase : r ≤ l
          · rw [if_pos hcase]
            exact mul_nonneg hr hbr
          · rw [if_neg hcase]
            have hrl : 0 ≤ r - l := by linarith [lt_of_not_le hcase]
            refine add_nonneg (mul_nonneg hl0 hbr) ?_
            by_cases hz : r - l ≤ 0
            · rw [if_pos hz]
            · rw [if_neg hz]
              exact ih (fun x hx => hrate x (by simp [hx]))
                (fun x hx => hlimit x (by simp [hx])) (r - l) hrl

theorem taxWalk_mono (bs : List TaxBracket)
    (hrate : ∀ b ∈ bs, 0 ≤ b.rate)
    (hlimit : ∀ b ∈ bs, ∀ l, b.limit = some l → 0 ≤ l) :
    ∀ r1 r2 : ℚ, 0 ≤ r1 → r1 ≤ r2 → taxWalk r1 bs ≤ taxWalk r2 bs := by
  induction bs with
  | nil => intro r1 r2 _ _; simp [taxWalk]
  | cons b rest ih =>
      intro r1 r2 hr1 h12
      have hbr : 0 ≤ b.rate := hrate b (by simp)
      have hrate2 : ∀ x ∈ rest, 0 ≤ x.rate := fun x hx => hrate x (by simp [hx])
      have hlimit2 : ∀ x ∈ rest, ∀ l, x.limit = some l → 0 ≤ l :=
        fun x hx => hlimit x (by simp [hx])
      unfold taxWalk
      cases hl : b.limit with
      | none => exact mul_le_mul_of_nonneg_right h12 hbr
      | some l =>
          dsimp only
          by_cases h1 : r1 ≤ l
          · by_cases h2 : r2 ≤ l
            · rw [if_pos h1, if_pos h2]
              exact mul_le_mul_of_nonneg_right h12 hbr
            · rw [if_pos h1, if_neg h2]
              have hz : ¬(r2 - l ≤ 0) := by
                have := lt_of_not_le h2
                intro hcontra
                linarith
              rw [if_neg hz]
              have step1 : r1 * b.rate ≤ l * b.rate :=
                mul_le_mul_of_nonneg_right h1 hbr
              have step2 : 0 ≤ taxWalk (r2 - l) rest :=
                taxWalk_nonneg rest hrate2 hlimit2 (r2 - l)
                  (by have := lt_of_not_le h2; linarith)
              linarith
          · have h2 : ¬(r2 ≤ l) := fun hcontra => h1 (le_trans h12 hcontra)
            rw [if_neg h1, if_neg h2]
            have hl1 : l < r1 := lt_of_not_le h1
            have hz1 : ¬(r1 - l ≤ 0) := by intro hc; linarith
            have hz2 : ¬(r2 - l ≤ 0) := by intro hc; linarith
            rw [if_neg hz1, if_neg hz2]
            exact add_le_add_left
              (ih hrate2 hlimit2 (r1 - l) (r2 - l) (by linarith) (by linarith)) _

/-- C2 counterexample: the claim quantifies over *every* bracket table, but
for a table with a negative rate the tax computation is strictly
decreasing in gross: with threshold 5000, a single unbounded bracket of
rate −1 and personal social security 0, gross 5001 pays tax −1 while
gross 5002 pays −2. -/
theorem apply_tax_not_monotone_counterexample :
    ¬ (∀ (table : TaxTable) (personal_ss g1 g2 : ℚ), g1 ≤ g2 →
        apply_tax table g1 personal_ss ≤ apply_tax table g2 personal_ss) := by
  intro h
  have := h ⟨5000, [⟨none, -1⟩]⟩ 0 5001 5002 (by norm_num)
  rw [show apply_tax ⟨5000, [⟨none, -1⟩]⟩ 5001 0 = -1 by norm_num [apply_tax, taxWalk],
    show apply_tax ⟨5000, [⟨none, -1⟩]⟩ 5002 0 = -2 by norm_num [apply_tax, taxWalk]] at this
  norm_num at this

/-- C2 amended: for every bracket table whose rates and finite limits are
nonnegative (true of any real progressive withholding table) and every
fixed personal social-security amount, `_apply_tax` is non-decreasing in
gross; and for every gross with `gross − personal_ss − threshold ≤ 0` it
returns exactly 0 (the zero part needs no table hypothesis). -/
theorem apply_tax_monotone_of_nonneg_table (table : TaxTable)
    (hrate : ∀ b ∈ table.brackets, 0 ≤ b.rate)
    (hlimit : ∀ b ∈ table.brackets, ∀ l, b.limit = some l → 0 ≤ l)
    (personal_ss : ℚ) :
    (∀ g1 g2 : ℚ, g1 ≤ g2 →
      apply_tax table g1 personal_ss ≤ apply_tax table g2 personal_ss) ∧
    (∀ g : ℚ, g - personal_ss - table.default_threshold ≤ 0 →
      apply_tax table g personal_ss = 0) := by
  constructor
  · intro g1 g2 h12
    unfold apply_tax
    have ht : g1 - personal_ss - table.default_threshold ≤
        g2 - personal_ss - table.default_threshold := by linarith
    by_cases h1 : g1 - personal_ss - table.default_threshold ≤ 0
    · rw [if_pos h1]
      by_cases h2 : g2 - personal_ss - table.default_threshold ≤ 0
      · rw [if_pos h2]
      · rw [if_neg h2]
        exact taxWalk_nonneg table.brackets hrate hlimit _ (by linarith [lt_of_not_le h2])
    · rw [if_neg h1]
      have h2 : ¬(g2 - personal_ss - table.default_threshold ≤ 0) := by
        intro hc; exact h1 (by linarith)
      rw [if_neg h2]
      exact taxWalk_mono table.brackets hrate hlimit _ _
        (by linarith [lt_of_not_le h1]) ht
  · intro g hg
    unfold apply_tax
    rw [if_pos hg]

/-- Witness for C2 amended: the standard 3%/10%/20% progressive table with
threshold 5000; tax is monotone from gross 8000 to 9000 and zero at
gross 4000. -/
theorem apply_tax_monotone_of_nonneg_table_witness :
    apply_tax ⟨5000, [⟨some 3000, 3/100⟩, ⟨some 9000, 1/10⟩, ⟨none, 1/5⟩]⟩ 8000 0 ≤
      apply_tax ⟨5000, [⟨some 3000, 3/100⟩, ⟨some 9000, 1/10⟩, ⟨none, 1/5⟩]⟩ 9000 0 ∧
    apply_tax ⟨5000, [⟨some 3000, 3/100⟩, ⟨some 9000, 1/10⟩, ⟨none, 1/5⟩]⟩ 4000 0 = 0 :=
  ⟨(apply_tax_monotone_of_nonneg_table _
      (by intro b hb; fin_cases hb <;> norm_num)
      (by intro b hb; fin_cases hb <;> simp_all) 0).1
      8000 9000 (by norm_num),
    (apply_tax_monotone_of_nonneg_table _
      (by intro b hb; fin_cases hb <;> norm_num)
      (by intro b hb; fin_cases hb <;> simp_all) 0).2
      4000 (by norm_num)⟩

/-- C3 counterexample: the claim treats a multiplier as 1 only when
*absent*, so for a stored weekday multiplier of 0 it predicts overtime
`1 × 10 × (0 − 1) = −10`; the code's `policy.ot_weekday_multiplier or
Decimal("1")` also treats a *zero* multiplier as 1 and pays 0. -/
theorem calc_hourly_zero_multiplier_counterexample :
    (calcBaseOt
        { blankSnapshot with
            mode := "HOURLY", base_rate := some 10, ot_weekday_multiplier := some 0 }
        { blankAgg with hour_ot_wd := 1 }).ot = 0 ∧
    ({ blankAgg with hour_ot_wd := 1 } : AggregatedFacts).hour_ot_wd * 10 * ((0 : ℚ) - 1)
      + ({ blankAgg with hour_ot_wd := 1 } : AggregatedFacts).hour_ot_we * 10 * ((1 : ℚ) - 1)
      = -10 ∧
    (0 : ℚ) ≠ -10 := by
  refine ⟨?_, ?_, by norm_num⟩
  · norm_num [calcBaseOt, blankSnapshot, blankAgg, decOr, select_hours, qOr]
  · norm_num [blankAgg]

/-- C3 amended: for a merged policy of mode HOURLY whose `base_rate` is
present, `calculate_period` computes base pay = selected hours ×
`base_rate` with the claimed precedence (`HOUR_CONFIRMED` if nonzero, else
`HOUR_TOTAL` if nonzero, else `HOUR_STD`), and overtime pay =
weekday OT hours × rate × (weekday multiplier − 1) + weekend OT hours ×
rate × (weekend multiplier − 1), with each multiplier treated as 1 when it
is absent *or zero* (Python falsiness), so such multipliers contribute
zero overtime. -/
theorem calc_hourly_base_and_ot_formula (policy : PolicySnapshot)
    (agg : AggregatedFacts) (r : ℚ)
    (hmode : policy.mode = "HOURLY") (hrate : policy.base_rate = some r) :
    (calcBaseOt policy agg).base =
      (if agg.hour_confirmed ≠ 0 then agg.hour_confirmed
       else if agg.hour_total ≠ 0 then agg.hour_total
       else agg.hour_std) * r ∧
    (calcBaseOt policy agg).ot =
      agg.hour_ot_wd * r *
        ((match policy.ot_weekday_multiplier with
          | none => 1
          | some m => if m = 0 then 1 else m) - 1) +
      agg.hour_ot_we * r *
        ((match policy.ot_weekend_multiplier with
          | none => 1
          | some m => if m = 0 then 1 else m) - 1) := by
  have hmm : ¬(policy.mode = "SALARIED") := by rw [hmode]; decide
  have hr : decOr policy.base_rate 0 = r := by
    rw [hrate]
    by_cases h : r = 0 <;> simp [decOr, h]
  have hsel : select_hours agg =
      (if agg.hour_confirmed ≠ 0 then agg.hour_confirmed
       else if agg.hour_total ≠ 0 then agg.hour_total
       else agg.hour_std) := by
    by_cases h1 : agg.hour_confirmed = 0 <;> by_cases h2 : agg.hour_total = 0 <;>
      simp [select_hours, qOr, h1, h2]
  unfold calcBaseOt
  rw [if_neg hmm]
  dsimp only
  refine ⟨by rw [hr, hsel], by rw [hr]; rfl⟩

/-- Witness for C3 amended: an hourly employee at rate 20 with 160
confirmed hours and 2 weekday OT hours under multiplier 1.5 earns base
3200 and incremental overtime 20. -/
theorem calc_hourly_base_and_ot_formula_witness :
    (calcBaseOt
        { blankSnapshot with
            mode := "HOURLY", base_rate := some 20,
            ot_weekday_multiplier := some (3 / 2) }
        { blankAgg with hour_confirmed := 160, hour_ot_wd := 2 }).base = 3200 ∧
    (calcBaseOt
        { blankSnapshot with
            mode := "HOURLY", base_rate := some 20,
            ot_weekday_multiplier := some (3 / 2) }
        { blankAgg with hour_confirmed := 160, hour_ot_wd := 2 }).ot = 20 :=
  ⟨(calc_hourly_base_and_ot_formula _ _ 20 rfl rfl).1.trans
      (by norm_num [blankAgg]),
    (calc_hourly_base_and_ot_formula _ _ 20 rfl rfl).2.trans
      (by norm_num [blankSnapshot, blankAgg])⟩

theorem dmerge_nil (o : JObj) : mergeNestedDict o .nil = o := rfl

theorem dmerge_cons (o : JObj) (k : String) (v : JVal) (r : JObj) :
    mergeNestedDict o (.cons k v r) = mergeNestedDict (mergeStep o k v) r := rfl

theorem mergeStep_scalar {v : JVal} (hv : v.isScalar = true) (o : JObj) (k : String) :
    mergeStep o k v = o.upsert k v := by
  cases v with
  | num q => rfl
  | str s => rfl
  | obj f => cases hv

theorem JObj.keys_cons (k : String) (v : JVal) (r : JObj) :
    (JObj.cons k v r).keys = k :: r.keys := rfl

theorem JObj.hasKey_cons (k0 : String) (v0 : JVal) (r : JObj) (k : String) :
    (JObj.cons k0 v0 r).hasKey k = (k0 == k || r.hasKey k) := rfl

theorem JObj.lookup_cons (k0 : String) (v0 : JVal) (r : JObj) (k : String) :
    (JObj.cons k0 v0 r).lookup k = if k0 = k then some v0 else r.lookup k := rfl

theorem JObj.setKey_cons (k0 : String) (v0 : JVal) (r : JObj) (k : String) (v : JVal) :
    (JObj.cons k0 v0 r).setKey k v =
      if k0 = k then .cons k0 v r else .cons k0 v0 (r.setKey k v) := rfl

theorem JObj.push_cons (k0 : String) (v0 : JVal) (r : JObj) (k : String) (v : JVal) :
    (JObj.cons k0 v0 r).push k v = .cons k0 v0 (r.push k v) := rfl

theorem JObj.push_nil (k : String) (v : JVal) :
    (JObj.nil).push k v = .cons k v .nil := rfl

theorem JObj.keys_setKey : ∀ (o : JObj) (k : String) (v : JVal),
    (o.setKey k v).keys = o.keys
  | .nil, _, _ => rfl
  | .cons k0 v0 r, k, v => by
      by_cases h : k0 = k <;>
        simp [JObj.setKey_cons, JObj.keys_cons, h, keys_setKey r k v]

theorem JObj.keys_push : ∀ (o : JObj) (k : String) (v : JVal),
    (o.push k v).keys = o.keys ++ [k]
  | .nil, _, _ => rfl
  | .cons k0 v0 r, k, v => by
      simp [JObj.push_cons, JObj.keys_cons, keys_push r k v]

theorem JObj.hasKey_iff : ∀ (o : JObj) (k : String), o.hasKey k = true ↔ k ∈ o.keys
  | .nil, k => by simp [JObj.hasKey, JObj.keys]
  | .cons k0 v0 r, k => by
      rw [JObj.hasKey_cons, JObj.keys_cons, Bool.or_eq_true, beq_iff_eq,
        List.mem_cons, hasKey_iff r k]
      exact or_congr_left (by constructor <;> exact Eq.symm)

theorem JObj.lookup_eq_none_iff : ∀ (o : JObj) (k : String),
    o.lookup k = none ↔ k ∉ o.keys
  | .nil, k => by simp [JObj.lookup, JObj.keys]
  | .cons k0 v0 r, k => by
      by_cases h : k0 = k
      · simp [JObj.lookup_cons, JObj.keys_cons, h]
      · have h2 : ¬(k = k0) := fun he => h he.symm
        simp [JObj.lookup_cons, JObj.keys_cons, h, h2, lookup_eq_none_iff r k]

theorem JObj.lookup_setKey_self : ∀ (o : JObj) (k : String) (v : JVal),
    k ∈ o.keys → (o.setKey k v).lookup k = some v
  | .nil, k, v => fun h => absurd h (List.not_mem_nil k)
  | .cons k0 v0 r, k, v => by
      intro h
      by_cases h0 : k0 = k
      · simp [JObj.setKey_cons, JObj.lookup_cons, h0]
      · have hr : k ∈ r.keys := by
          rcases List.mem_cons.mp (JObj.keys_cons k0 v0 r ▸ h) with he | hr
          · exact absurd he.symm h0
          · exact hr
        simp [JObj.setKey_cons, JObj.lookup_cons, h0, lookup_setKey_self r k v hr]

theorem JObj.lookup_setKey_ne : ∀ (o : JObj) (k k2 : String) (v : JVal), k2 ≠ k →
    (o.setKey k v).lookup k2 = o.lookup k2
  | .nil, _, _, _, _ => rfl
  | .cons k0 v0 r, k, k2, v, h => by
      by_cases h0 : k0 = k
      · subst h0
        have h1 : ¬(k0 = k2) := fun he => h he.symm
        simp [JObj.setKey_cons, JObj.lookup_cons, h1]
      · by_cases h1 : k0 = k2
        · subst h1
          have h2 : ¬(k0 = k) := h0
          simp [JObj.setKey_cons, JObj.lookup_cons, h2]
        · simp [JObj.setKey_cons, JObj.lookup_cons, h0, h1,
            lookup_setKey_ne r k k2 v h]

theorem JObj.lookup_push_self : ∀ (o : JObj) (k : String) (v : JVal),
    k ∉ o.keys → (o.push k v).lookup k = some v
  | .nil, k, v => by intro _; simp [JObj.push_nil, JObj.lookup_cons]
  | .cons k0 v0 r, k, v => by
      intro h
      have h0 : ¬(k0 = k) := fun he => h (by simp [JObj.keys_cons, he])
      have hr : k ∉ r.keys := fun hm => h (by simp [JObj.keys_cons, hm])
      simp [JObj.push_cons, JObj.lookup_cons, h0, lookup_push_self r k v hr]

theorem JObj.lookup_push_ne : ∀ (o : JObj) (k k2 : String) (v : JVal), k2 ≠ k →
    (o.push k v).lookup k2 = o.lookup k2
  | .nil, k, k2, v, h => by
      have h2 : ¬(k = k2) := fun he => h he.symm
      simp [JObj.push_nil, JObj.lookup_cons, JObj.lookup, h2]
  | .cons k0 v0 r, k, k2, v, h => by
      by_cases h0 : k0 = k2 <;>
        simp [JObj.push_cons, JObj.lookup_cons, h0, lookup_push_ne r k k2 v h]

theorem JObj.setKey_setKey_same : ∀ (o : JObj) (k : String) (v1 v2 : JVal),
    (o.setKey k v1).setKey k v2 = o.setKey k v2
  | .nil, _, _, _ => rfl
  | .cons k0 v0 r, k, v1, v2 => by
      by_cases h : k0 = k <;>
        simp [JObj.setKey_cons, h, setKey_setKey_same r k v1 v2]

theorem JObj.setKey_setKey_comm : ∀ (o : JObj) (k k2 : String) (w v2 : JVal), k ≠ k2 →
    (o.setKey k w).setKey k2 v2 = (o.setKey k2 v2).setKey k w
  | .nil, _, _, _, _, _ => rfl
  | .cons k0 v0 r, k, k2, w, v2, h => by
      by_cases h0 : k0 = k
      · subst h0
        have h1 : ¬(k0 = k2) := h
        simp [JObj.setKey_cons, h1]
      · by_cases h1 : k0 = k2
        · subst h1
          have h2 : ¬(k0 = k) := h0
          have h3 : ¬(k = k0) := fun he => h0 he.symm
          simp [JObj.setKey_cons, h2, h3]
        · simp [JObj.setKey_cons, h0, h1, setKey_setKey_comm r k k2 w v2 h]

theorem JObj.setKey_push_of_ne : ∀ (o : JObj) (k k2 : String) (w v2 : JVal), k ≠ k2 →
    (o.push k2 v2).setKey k w = (o.setKey k w).push k2 v2
  | .nil, k, k2, w, v2, h => by
      have h2 : ¬(k2 = k) := fun he => h he.symm
      simp [JObj.push_nil, JObj.setKey_cons, JObj.setKey, JObj.push, h2]
  | .cons k0 v0 r, k, k2, w, v2, h => by
      by_cases h0 : k0 = k <;>
        simp [JObj.push_cons, JObj.setKey_cons, h0, setKey_push_of_ne r k k2 w v2 h]

theorem JObj.setKey_push_self : ∀ (o : JObj) (k : String) (v1 v2 : JVal),
    k ∉ o.keys → (o.push k v1).setKey k v2 = o.push k v2
  | .nil, k, v1, v2 => by intro _; simp [JObj.push_nil, JObj.setKey_cons, JObj.setKey]
  | .cons k0 v0 r, k, v1, v2 => by
      intro h
      have h0 : ¬(k0 = k) := fun he => h (by simp [JObj.keys_cons, he])
      have hr : k ∉ r.keys := fun hm => h (by simp [JObj.keys_cons, hm])
      simp [JObj.push_cons, JObj.setKey_cons, h0, setKey_push_self r k v1 v2 hr]

theorem JObj.flat_cons (k : String) (v : JVal) (r : JObj) :
    (JObj.cons k v r).flat = (v.isScalar && r.flat) := rfl

theorem JObj.hasKey_setKey : ∀ (o : JObj) (k k2 : String) (w : JVal),
    (o.setKey k w).hasKey k2 = o.hasKey k2
  | .nil, _, _, _ => rfl
  | .cons k0 v0 r, k, k2, w => by
      by_cases h : k0 = k <;>
        simp [JObj.setKey_cons, JObj.hasKey_cons, h, hasKey_setKey r k k2 w]

theorem JObj.upsert_eq_setKey (o : JObj) (k : String) (v : JVal) (h : k ∈ o.keys) :
    o.upsert k v = o.setKey k v := by
  unfold JObj.upsert
  rw [if_pos ((JObj.hasKey_iff o k).mpr h)]

theorem JObj.mem_keys_upsert_self (o : JObj) (k : String) (v : JVal) :
    k ∈ (o.upsert k v).keys := by
  unfold JObj.upsert
  by_cases hc : o.hasKey k = true
  · rw [if_pos hc, JObj.keys_setKey]
    exact (JObj.hasKey_iff o k).mp hc
  · rw [if_neg hc, JObj.keys_push]
    simp

theorem JObj.mem_keys_upsert_of_mem (o : JObj) (k j : String) (v : JVal)
    (h : j ∈ o.keys) : j ∈ (o.upsert k v).keys := by
  unfold JObj.upsert
  by_cases hc : o.hasKey k = true
  · rw [if_pos hc, JObj.keys_setKey]
    exact h
  · rw [if_neg hc, JObj.keys_push]
    simp [h]

theorem JObj.upsert_setKey_comm (o : JObj) (k k2 : String) (w v2 : JVal) (h : k ≠ k2) :
    (o.setKey k w).upsert k2 v2 = (o.upsert k2 v2).setKey k w := by
  unfold JObj.upsert
  rw [JObj.hasKey_setKey]
  by_cases hc : o.hasKey k2 = true
  · rw [if_pos hc, if_pos hc]
    exact JObj.setKey_setKey_comm o k k2 w v2 h
  · rw [if_neg hc, if_neg hc]
    exact (JObj.setKey_push_of_ne o k k2 w v2 h).symm

theorem JObj.upsert_def (o : JObj) (k : String) (v : JVal) :
    o.upsert k v = if o.hasKey k then o.setKey k v else o.push k v := rfl

theorem JObj.upsert_upsert_same (o : JObj) (k : String) (v1 v2 : JVal) :
    (o.upsert k v1).upsert k v2 = o.upsert k v2 := by
  by_cases hc : o.hasKey k = true
  · simp only [JObj.upsert_def, JObj.hasKey_setKey, hc, if_true]
    exact JObj.setKey_setKey_same o k v1 v2
  · have hcf : o.hasKey k = false := by simpa using hc
    have hnm : k ∉ o.keys := fun hm => hc ((JObj.hasKey_iff o k).mpr hm)
    have hmem : (o.push k v1).hasKey k = true :=
      (JObj.hasKey_iff _ _).mpr (by simp [JObj.keys_push])
    simp only [JObj.upsert_def, hcf, Bool.false_eq_true, if_false, hmem, if_true]
    exact JObj.setKey_push_self o k v1 v2 hnm

theorem JObj.flat_setKey : ∀ (o : JObj) (k : String) (v : JVal), v.isScalar = true →
    o.flat = true → (o.setKey k v).flat = true
  | .nil, _, _, _, _ => rfl
  | .cons k0 v0 r, k, v, hv, ho => by
      rw [JObj.flat_cons, Bool.and_eq_true] at ho
      by_cases h : k0 = k <;>
        simp [JObj.setKey_cons, h, JObj.flat_cons, hv, ho.1, ho.2,
          flat_setKey r k v hv ho.2]

theorem JObj.flat_push : ∀ (o : JObj) (k : String) (v : JVal), v.isScalar = true →
    o.flat = true → (o.push k v).flat = true
  | .nil, k, v, hv, _ => by simp [JObj.push_nil, JObj.flat_cons, hv, JObj.flat]
  | .cons k0 v0 r, k, v, hv, ho => by
      rw [JObj.flat_cons, Bool.and_eq_true] at ho
      simp [JObj.push_cons, JObj.flat_cons, ho.1, flat_push r k v hv ho.2]

theorem JObj.flat_upsert (o : JObj) (k : String) (v : JVal) (hv : v.isScalar = true)
    (ho : o.flat = true) : (o.upsert k v).flat = true := by
  unfold JObj.upsert
  by_cases hc : o.hasKey k = true
  · rw [if_pos hc]
    exact JObj.flat_setKey o k v hv ho
  · rw [if_neg hc]
    exact JObj.flat_push o k v hv ho

theorem JObj.nodup_keys_upsert (o : JObj) (k : String) (v : JVal)
    (h : o.keys.Nodup) : (o.upsert k v).keys.Nodup := by
  unfold JObj.upsert
  by_cases hc : o.hasKey k = true
  · rw [if_pos hc, JObj.keys_setKey]
    exact h
  · rw [if_neg hc, JObj.keys_push]
    have hnm : k ∉ o.keys := fun hm => hc ((JObj.hasKey_iff o k).mpr hm)
    simp [List.nodup_append, h, hnm]

theorem mem_keys_dmerge : ∀ (i : JObj), i.flat = true → ∀ (acc : JObj) (j : String),
    j ∈ acc.keys → j ∈ (mergeNestedDict acc i).keys
  | .nil, _, _, _, h => h
  | .cons k2 v2 rest, hf, acc, j, h => by
      rw [JObj.flat_cons, Bool.and_eq_true] at hf
      rw [dmerge_cons, mergeStep_scalar hf.1]
      exact mem_keys_dmerge rest hf.2 (acc.upsert k2 v2) j
        (JObj.mem_keys_upsert_of_mem acc k2 j v2 h)

theorem dmerge_setKey_comm : ∀ (i : JObj), i.flat = true → ∀ (k : String),
    k ∉ i.keys → ∀ (w : JVal) (acc : JObj),
    mergeNestedDict (acc.setKey k w) i = (mergeNestedDict acc i).setKey k w
  | .nil, _, _, _, _, _ => rfl
  | .cons k2 v2 rest, hf, k, hk, w, acc => by
      rw [JObj.flat_cons, Bool.and_eq_true] at hf
      have hk2 : k ≠ k2 := fun he => hk (by simp [JObj.keys_cons, he])
      have hkr : k ∉ rest.keys := fun hm => hk (by simp [JObj.keys_cons, hm])
      rw [dmerge_cons, dmerge_cons, mergeStep_scalar hf.1, mergeStep_scalar hf.1,
        JObj.upsert_setKey_comm acc k k2 w v2 hk2]
      exact dmerge_setKey_comm rest hf.2 k hkr w (acc.upsert k2 v2)

theorem dmerge_upsert : ∀ (b : JObj), b.flat = true → b.keys.Nodup →
    ∀ (k : String) (v : JVal), v.isScalar = true → ∀ (a : JObj),
    mergeNestedDict a (b.upsert k v) = (mergeNestedDict a b).upsert k v
  | .nil, _, _, k, v, hv, a => by
      rw [show (JObj.nil).upsert k v = .cons k v .nil from rfl, dmerge_cons,
        dmerge_nil, dmerge_nil, mergeStep_scalar hv]
  | .cons k' v' rest, hf, hn, k, v, hv, a => by
      rw [JObj.flat_cons, Bool.and_eq_true] at hf
      rw [JObj.keys_cons, List.nodup_cons] at hn
      by_cases hk : k' = k
      · subst hk
        have h1 : (JObj.cons k' v' rest).upsert k' v = .cons k' v rest := by
          unfold JObj.upsert
          rw [if_pos (by rw [JObj.hasKey_cons]; simp), JObj.setKey_cons, if_pos rfl]
        rw [h1, dmerge_cons, dmerge_cons, mergeStep_scalar hv, mergeStep_scalar hf.1]
        have e1 : a.upsert k' v = (a.upsert k' v').setKey k' v := by
          rw [← JObj.upsert_eq_setKey (a.upsert k' v') k' v
            (JObj.mem_keys_upsert_self a k' v'), JObj.upsert_upsert_same]
        rw [e1, dmerge_setKey_comm rest hf.2 k' hn.1 v (a.upsert k' v'),
          JObj.upsert_eq_setKey _ k' v
            (mem_keys_dmerge rest hf.2 (a.upsert k' v') k'
              (JObj.mem_keys_upsert_self a k' v'))]
      · have h1 : (JObj.cons k' v' rest).upsert k v = .cons k' v' (rest.upsert k v) := by
          unfold JObj.upsert
          rw [JObj.hasKey_cons, show (k' == k) = false by simp [hk], Bool.false_or]
          by_cases h2 : rest.hasKey k = true
          · rw [if_pos h2, if_pos h2, JObj.setKey_cons, if_neg hk]
          · rw [if_neg h2, if_neg h2, JObj.push_cons]
        rw [h1, dmerge_cons, dmerge_cons, mergeStep_scalar hf.1]
        exact dmerge_upsert rest hf.2 hn.2 k v hv (a.upsert k' v')

theorem mergeNestedDict_assoc_of_flat : ∀ (c : JObj), c.flat = true → c.keys.Nodup →
    ∀ (b : JObj), b.flat = true → b.keys.Nodup → ∀ (a : JObj),
    mergeNestedDict (mergeNestedDict a b) c = mergeNestedDict a (mergeNestedDict b c)
  | .nil, _, _, _, _, _, _ => rfl
  | .cons k v rest, hcf, hcn, b, hbf, hbn, a => by
      rw [JObj.flat_cons, Bool.and_eq_true] at hcf
      rw [JObj.keys_cons, List.nodup_cons] at hcn
      simp only [dmerge_cons, mergeStep_scalar hcf.1]
      rw [← dmerge_upsert b hbf hbn k v hcf.1 a]
      exact mergeNestedDict_assoc_of_flat rest hcf.2 hcn.2 (b.upsert k v)
        (JObj.flat_upsert b k v hcf.1 hbf) (JObj.nodup_keys_upsert b k v hbn) a

theorem mergeNum_assoc (x y z : Option ℚ) :
    mergeNum (mergeNum x y) z = mergeNum x (mergeNum y z) := by
  cases x <;> cases y <;> cases z <;> rfl

theorem firstTruthy_assoc {α : Type} (t : α → Bool) (x y z : α) :
    firstTruthy t (firstTruthy t x y) z = firstTruthy t x (firstTruthy t y z) := by
  unfold firstTruthy
  cases hx : t x <;> cases hy : t y <;> cases hz : t z <;> simp [hx, hy, hz]

theorem PolicySnapshot.ext21 (p q : PolicySnapshot)
    (h1 : p.ws_id = q.ws_id)
    (h2 : p.employee_name_norm = q.employee_name_norm)
    (h3 : p.period_month = q.period_month)
    (h4 : p.mode = q.mode)
    (h5 : p.base_amount = q.base_amount)
    (h6 : p.base_rate = q.base_rate)
    (h7 : p.ot_weekday_multiplier = q.ot_weekday_multiplier)
    (h8 : p.ot_weekend_multiplier = q.ot_weekend_multiplier)
    (h9 : p.ot_weekday_rate = q.ot_weekday_rate)
    (h10 : p.ot_weekend_rate = q.ot_weekend_rate)
    (h11 : p.allowances_json = q.allowances_json)
    (h12 : p.deductions_json = q.deductions_json)
    (h13 : p.tax_json = q.tax_json)
    (h14 : p.social_security_json = q.social_security_json)
    (h15 : p.valid_from = q.valid_from)
    (h16 : p.valid_to = q.valid_to)
    (h17 : p.raw_snapshot = q.raw_snapshot)
    (h18 : p.source_file = q.source_file)
    (h19 : p.source_sheet = q.source_sheet)
    (h20 : p.source_row_range = q.source_row_range)
    (h21 : p.snapshot_hash = q.snapshot_hash) : p = q := by
  obtain ⟨a1, a2, a3, a4, a5, a6, a7, a8, a9, a10, a11, a12, a13, a14, a15, a16,
    a17, a18, a19, a20, a21⟩ := p
  obtain ⟨b1, b2, b3, b4, b5, b6, b7, b8, b9, b10, b11, b12, b13, b14, b15, b16,
    b17, b18, b19, b20, b21⟩ := q
  simp_all

/-- C5 counterexample: the merge is not associative.  Three snapshots for
one key, all SALARIED, whose `allowances_json` values at key `"k"`
alternate dict / scalar / dict: folding left-to-right yields
`{"k": {"y": 3}}` (the scalar killed the first dict, the last dict then
replaced the scalar), while the right-parenthesised fold deep-merges the
first and last dicts into `{"k": {"x": 1, "y": 3}}`. -/
theorem merge_policy_snapshots_not_associative :
    merge_policy_snapshots
        (some (merge_policy_snapshots (some
          { blankSnapshot with
              allowances_json := .cons "k" (.obj (.cons "x" (.num 1) .nil)) .nil })
          { blankSnapshot with allowances_json := .cons "k" (.num 2) .nil }))
        { blankSnapshot with
            allowances_json := .cons "k" (.obj (.cons "y" (.num 3) .nil)) .nil } ≠
      merge_policy_snapshots (some
          { blankSnapshot with
              allowances_json := .cons "k" (.obj (.cons "x" (.num 1) .nil)) .nil })
        (merge_policy_snapshots (some
          { blankSnapshot with allowances_json := .cons "k" (.num 2) .nil })
          { blankSnapshot with
              allowances_json := .cons "k" (.obj (.cons "y" (.num 3) .nil)) .nil }) := by
  decide

/-- C5 amended: the snapshot merge *is* associative on the fragment the
ingestion pipeline actually produces when no mode reclassification and no
dict-versus-scalar JSON conflict is involved: for snapshots A, B, C
sharing one mode whose JSON map fields (on B and C) are flat
string-to-scalar maps with duplicate-free keys,
`merge(merge(A,B),C) = merge(A,merge(B,C))` over every field.  With
differing modes, or a dict value replaced by a scalar and then a dict
again, the left fold's result depends on parenthesisation (see the
counterexample). -/
theorem merge_policy_snapshots_assoc_same_mode_flat (a b c : PolicySnapshot)
    (hab : a.mode = b.mode) (hbc : b.mode = c.mode)
    (hb : b.jsonFlatNodup) (hc : c.jsonFlatNodup) :
    merge_policy_snapshots (some (merge_policy_snapshots (some a) b)) c =
      merge_policy_snapshots (some a) (merge_policy_snapshots (some b) c) := by
  obtain ⟨⟨hbf1, hbn1⟩, ⟨hbf2, hbn2⟩, ⟨hbf3, hbn3⟩, ⟨hbf4, hbn4⟩⟩ := hb
  obtain ⟨⟨hcf1, hcn1⟩, ⟨hcf2, hcn2⟩, ⟨hcf3, hcn3⟩, ⟨hcf4, hcn4⟩⟩ := hc
  have hmAB : (merge_policy_snapshots (some a) b).mode = a.mode := by
    rw [mergeSnap_mode, if_neg (fun h => h hab)]
  have hmBC : (merge_policy_snapshots (some b) c).mode = b.mode := by
    rw [mergeSnap_mode, if_neg (fun h => h hbc)]
  have hABc : (merge_policy_snapshots (some a) b).mode = c.mode :=
    hmAB.trans (hab.trans hbc)
  have haBC : a.mode = (merge_policy_snapshots (some b) c).mode :=
    (hab.trans hmBC.symm)
  refine PolicySnapshot.ext21 _ _ ?_ ?_ ?_ ?_ ?_ ?_ ?_ ?_ ?_ ?_ ?_ ?_ ?_ ?_ ?_ ?_
    ?_ ?_ ?_ ?_ ?_
  · simp only [mergeSnap_ws_id]
  · simp only [mergeSnap_name]
  · simp only [mergeSnap_period]
  · rw [mergeSnap_mode, if_neg (fun h => h hABc), hmAB,
      mergeSnap_mode (e := a), if_neg (fun h => h haBC)]
  · simp only [mergeSnap_base_amount, mergeNum_assoc]
  · simp only [mergeSnap_base_rate, mergeNum_assoc]
  · simp only [mergeSnap_ot_wd_mult, mergeNum_assoc]
  · simp only [mergeSnap_ot_we_mult, mergeNum_assoc]
  · simp only [mergeSnap_ot_wd_rate, mergeNum_assoc]
  · simp only [mergeSnap_ot_we_rate, mergeNum_assoc]
  · simp only [mergeSnap_allowances]
    exact mergeNestedDict_assoc_of_flat _ hcf1 hcn1 _ hbf1 hbn1 _
  · simp only [mergeSnap_deductions]
    exact mergeNestedDict_assoc_of_flat _ hcf2 hcn2 _ hbf2 hbn2 _
  · simp only [mergeSnap_tax_json]
    exact mergeNestedDict_assoc_of_flat _ hcf3 hcn3 _ hbf3 hbn3 _
  · simp only [mergeSnap_ss_json]
    exact mergeNestedDict_assoc_of_flat _ hcf4 hcn4 _ hbf4 hbn4 _
  · simp only [mergeSnap_valid_from, firstTruthy_assoc]
  · simp only [mergeSnap_valid_to, firstTruthy_assoc]
  · simp only [mergeSnap_raw, firstTruthy_assoc]
  · simp only [mergeSnap_source_file, firstTruthy_assoc]
  · simp only [mergeSnap_source_sheet, firstTruthy_assoc]
  · simp only [mergeSnap_source_row_range, firstTruthy_assoc]
  · simp only [mergeSnap_snapshot_hash, firstTruthy_assoc]

/-- Witness for C5 amended: a roster-style snapshot, a policy-sheet-style
snapshot and a correction snapshot, all SALARIED with flat JSON maps,
merge associatively. -/
theorem merge_policy_snapshots_assoc_same_mode_flat_witness :
    ({ blankSnapshot with
        base_amount := some 100
        social_security_json := .cons "employee" (.num 8) .nil } :
      PolicySnapshot).mode =
      ({ blankSnapshot with
          allowances_json := .cons "餐补" (.num 2) (.cons "交通" (.num 3) .nil) } :
        PolicySnapshot).mode ∧
    ({ blankSnapshot with
        allowances_json := .cons "餐补" (.num 2) (.cons "交通" (.num 3) .nil) } :
      PolicySnapshot).mode =
      ({ blankSnapshot with
          base_rate := some 50
          allowances_json := .cons "餐补" (.num 9) .nil } : PolicySnapshot).mode ∧
    merge_policy_snapshots
        (some (merge_policy_snapshots (some
          { blankSnapshot with
              base_amount := some 100
              social_security_json := .cons "employee" (.num 8) .nil })
          { blankSnapshot with
              allowances_json := .cons "餐补" (.num 2) (.cons "交通" (.num 3) .nil) }))
        { blankSnapshot with
            base_rate := some 50
            allowances_json := .cons "餐补" (.num 9) .nil } =
      merge_policy_snapshots (some
          { blankSnapshot with
              base_amount := some 100
              social_security_json := .cons "employee" (.num 8) .nil })
        (merge_policy_snapshots (some
          { blankSnapshot with
              allowances_json := .cons "餐补" (.num 2) (.cons "交通" (.num 3) .nil) })
          { blankSnapshot with
              base_rate := some 50
              allowances_json := .cons "餐补" (.num 9) .nil }) :=
  ⟨rfl, rfl,
    merge_policy_snapshots_assoc_same_mode_flat _ _ _ rfl rfl
      (by refine ⟨⟨?_, ?_⟩, ⟨?_, ?_⟩, ⟨?_, ?_⟩, ⟨?_, ?_⟩⟩ <;> decide)
      (by refine ⟨⟨?_, ?_⟩, ⟨?_, ?_⟩, ⟨?_, ?_⟩, ⟨?_, ?_⟩⟩ <;> decide)⟩

theorem mergeStep_obj (e : JObj) (k : String) (vsub : JObj) :
    mergeStep e k (JVal.obj vsub) =
      match e.lookup k with
      | some (JVal.obj sub) => e.setKey k (JVal.obj (mergeNestedDict sub vsub))
      | some _ => e.setKey k (JVal.obj vsub)
      | none => e.push k (JVal.obj vsub) := rfl

theorem JObj.mem_of_lookup_some {o : JObj} {k : String} {v : JVal}
    (h : o.lookup k = some v) : k ∈ o.keys := by
  by_contra hnm
  rw [(JObj.lookup_eq_none_iff o k).mpr hnm] at h
  cases h

theorem JObj.lookup_upsert_ne (o : JObj) (k0 k : String) (v : JVal) (h : k ≠ k0) :
    (o.upsert k0 v).lookup k = o.lookup k := by
  rw [JObj.upsert_def]
  by_cases hc : o.hasKey k0 = true
  · rw [if_pos hc]
    exact JObj.lookup_setKey_ne o k0 k v h
  · rw [if_neg hc]
    exact JObj.lookup_push_ne o k0 k v h

theorem mergeStep_lookup_ne (e : JObj) (k0 k : String) (v0 : JVal) (h : k ≠ k0) :
    (mergeStep e k0 v0).lookup k = e.lookup k := by
  cases v0 with
  | num q =>
      rw [mergeStep_scalar (v := JVal.num q) rfl]
      exact JObj.lookup_upsert_ne e k0 k _ h
  | str s =>
      rw [mergeStep_scalar (v := JVal.str s) rfl]
      exact JObj.lookup_upsert_ne e k0 k _ h
  | obj vsub =>
      rw [mergeStep_obj]
      rcases hev : e.lookup k0 with _ | ev
      · exact JObj.lookup_push_ne e k0 k _ h
      · cases ev <;> exact JObj.lookup_setKey_ne e k0 k _ h

theorem mergeStep_lookup_self (e : JObj) (k0 : String) (v0 : JVal) :
    (mergeStep e k0 v0).lookup k0 =
      match e.lookup k0, v0 with
      | some (JVal.obj es), JVal.obj vsub => some (JVal.obj (mergeNestedDict es vsub))
      | _, _ => some v0 := by
  rcases hev : e.lookup k0 with _ | ev
  · have hnm : k0 ∉ e.keys := (JObj.lookup_eq_none_iff e k0).mp hev
    have hcf : e.hasKey k0 = false := by
      cases hb : e.hasKey k0
      · rfl
      · exact absurd ((JObj.hasKey_iff e k0).mp hb) hnm
    cases v0 with
    | num q =>
        rw [mergeStep_scalar (v := JVal.num q) rfl, JObj.upsert_def, hcf]
        simp only [Bool.false_eq_true, if_false]
        exact JObj.lookup_push_self e k0 _ hnm
    | str s =>
        rw [mergeStep_scalar (v := JVal.str s) rfl, JObj.upsert_def, hcf]
        simp only [Bool.false_eq_true, if_false]
        exact JObj.lookup_push_self e k0 _ hnm
    | obj vsub =>
        rw [mergeStep_obj, hev]
        exact JObj.lookup_push_self e k0 _ hnm
  · have hmem : k0 ∈ e.keys := JObj.mem_of_lookup_some hev
    have hct : e.hasKey k0 = true := (JObj.hasKey_iff e k0).mpr hmem
    cases v0 with
    | num q =>
        rw [mergeStep_scalar (v := JVal.num q) rfl, JObj.upsert_def, hct, if_pos rfl,
          JObj.lookup_setKey_self e k0 _ hmem]
        cases ev <;> rfl
    | str s =>
        rw [mergeStep_scalar (v := JVal.str s) rfl, JObj.upsert_def, hct, if_pos rfl,
          JObj.lookup_setKey_self e k0 _ hmem]
        cases ev <;> rfl
    | obj vsub =>
        rw [mergeStep_obj, hev]
        cases ev with
        | num q => rw [JObj.lookup_setKey_self e k0 _ hmem]
        | str s => rw [JObj.lookup_setKey_self e k0 _ hmem]
        | obj es => rw [JObj.lookup_setKey_self e k0 _ hmem]

theorem dmerge_lookup : ∀ (i : JObj), i.keys.Nodup → ∀ (e : JObj) (k : String),
    (mergeNestedDict e i).lookup k =
      match i.lookup k with
      | none => e.lookup k
      | some iv =>
          match e.lookup k, iv with
          | some (JVal.obj es), JVal.obj isub =>
              some (JVal.obj (mergeNestedDict es isub))
          | _, _ => some iv
  | .nil, _, e, k => by rw [dmerge_nil]; rfl
  | .cons k0 v0 rest, hn, e, k => by
      rw [JObj.keys_cons, List.nodup_cons] at hn
      rw [dmerge_cons, dmerge_lookup rest hn.2 (mergeStep e k0 v0) k]
      by_cases hk : k = k0
      · subst hk
        have hrest : rest.lookup k = none := (JObj.lookup_eq_none_iff rest k).mpr hn.1
        rw [hrest]
        dsimp only
        rw [mergeStep_lookup_self, JObj.lookup_cons, if_pos rfl]
      · have hk0 : ¬(k0 = k) := fun he => hk he.symm
        rw [mergeStep_lookup_ne e k0 k v0 hk, JObj.lookup_cons, if_neg hk0]

/-- C7: for each JSON map field, the deep merge `_merge_nested_dict`
satisfies, at every key `k` of dictionaries with duplicate-free keys:
a key present only in `existing` keeps its value, a key present only in
`incoming` is unioned in with incoming's value, a key present in both with
dict values on both sides merges recursively, and a key present in both
where at least one side is not a dict takes incoming's value (a scalar may
replace a dict). -/
theorem merge_nested_dict_lookup_spec (existing incoming : JObj)
    (hi : incoming.keys.Nodup) (k : String) :
    (mergeNestedDict existing incoming).lookup k =
      match incoming.lookup k with
      | none => existing.lookup k
      | some iv =>
          match existing.lookup k, iv with
          | some (JVal.obj es), JVal.obj isub =>
              some (JVal.obj (mergeNestedDict es isub))
          | _, _ => some iv :=
  dmerge_lookup incoming hi existing k

/-- Witness for C7 at a concrete pair of dicts: key `"a"` (dict on both
sides) merges recursively, key `"b"` (existing only) survives, key `"c"`
(incoming only) is unioned in, key `"d"` (dict replaced by scalar) takes
incoming's scalar. -/
theorem merge_nested_dict_lookup_spec_witness :
    (JObj.cons "a" (.obj (.cons "y" (.num 2) .nil))
        (.cons "c" (.num 7) (.cons "d" (.num 9) .nil))).keys.Nodup ∧
    (mergeNestedDict
        (.cons "a" (.obj (.cons "x" (.num 1) .nil))
          (.cons "b" (.num 5) (.cons "d" (.obj (.cons "z" (.num 4) .nil)) .nil)))
        (.cons "a" (.obj (.cons "y" (.num 2) .nil))
          (.cons "c" (.num 7) (.cons "d" (.num 9) .nil)))).lookup "a" =
      some (.obj (.cons "x" (.num 1) (.cons "y" (.num 2) .nil))) ∧
    (mergeNestedDict
        (.cons "a" (.obj (.cons "x" (.num 1) .nil))
          (.cons "b" (.num 5) (.cons "d" (.obj (.cons "z" (.num 4) .nil)) .nil)))
        (.cons "a" (.obj (.cons "y" (.num 2) .nil))
          (.cons "c" (.num 7) (.cons "d" (.num 9) .nil)))).lookup "b" = some (.num 5) ∧
    (mergeNestedDict
        (.cons "a" (.obj (.cons "x" (.num 1) .nil))
          (.cons "b" (.num 5) (.cons "d" (.obj (.cons "z" (.num 4) .nil)) .nil)))
        (.cons "a" (.obj (.cons "y" (.num 2) .nil))
          (.cons "c" (.num 7) (.cons "d" (.num 9) .nil)))).lookup "c" = some (.num 7) ∧
    (mergeNestedDict
        (.cons "a" (.obj (.cons "x" (.num 1) .nil))
          (.cons "b" (.num 5) (.cons "d" (.obj (.cons "z" (.num 4) .nil)) .nil)))
        (.cons "a" (.obj (.cons "y" (.num 2) .nil))
          (.cons "c" (.num 7) (.cons "d" (.num 9) .nil)))).lookup "d" = some (.num 9) :=
  ⟨by decide,
    (merge_nested_dict_lookup_spec _ _ (by decide) "a").trans (by decide),
    (merge_nested_dict_lookup_spec _ _ (by decide) "b").trans (by decide),
    (merge_nested_dict_lookup_spec _ _ (by decide) "c").trans (by decide),
    (merge_nested_dict_lookup_spec _ _ (by decide) "d").trans (by decide)⟩
